import Mathlib

/-!
Verification of the track-initiation program (source files `test1.py` and
`test4_2.py`).  The two Python variants are embedded shallowly:

* Python dicts keyed by integers become association lists (`dlookup`,
  `dset`, `dpop`); a `KeyError` on a direct `d[k]` access is modelled by an
  `Option`-valued lookup.
* The track-id pool (`get_next_track_id`, `release_track_id`) is embedded
  with explicit state passing; `release_track_id` returns `none` for an
  out-of-range index (Python `IndexError`).
* The per-measurement processing loop of `initialize_tracks` becomes a
  fallible fold (`foldSteps`); any Python exception inside a step
  (`KeyError`, `IndexError`, `ValueError`, `AttributeError`, `TypeError`)
  makes the step return `none`.
* The measurement type is an abstract parameter `M`, and the gating
  predicate of §4.2 (computed inline in the Python association loop from
  `sph2cart`, `doppler_correlation`, `range_gate` and the time difference
  over floats) is abstracted as a parameter `gate : M → M → Bool` of the
  lifecycle machine.  The real-arithmetic content of the gate itself is
  embedded separately over `ℝ` (`gateProp` below) and verified against the
  spec formula.
-/

/-- Association-list lookup, modelling a Python dict read `d[k]`
(`none` = `KeyError`). -/
def dlookup {β : Type} (d : List (Nat × β)) (k : Nat) : Option β :=
  match d with
  | [] => none
  | (k1, v) :: rest => if k1 = k then some v else dlookup rest k

/-- Python `d.get(k, dflt)`. -/
def dgetD {β : Type} (d : List (Nat × β)) (k : Nat) (dflt : β) : β :=
  (dlookup d k).getD dflt

/-- Python `d[k] = v`: replace the binding of `k` if present, else append it. -/
def dset {β : Type} (d : List (Nat × β)) (k : Nat) (v : β) : List (Nat × β) :=
  match d with
  | [] => [(k, v)]
  | (k1, v1) :: rest => if k1 = k then (k, v) :: rest else (k1, v1) :: dset rest k v

/-- Python `d.pop(k, None)`: drop the binding of `k` if present. -/
def dpop {β : Type} (d : List (Nat × β)) (k : Nat) : List (Nat × β) :=
  match d with
  | [] => []
  | (k1, v1) :: rest => if k1 = k then rest else (k1, v1) :: dpop rest k

/-- Python set / dict-to-True insertion (`s.add(x)`, `d[x] = True`). -/
def sinsert (l : List Nat) (x : Nat) : List Nat :=
  if x ∈ l then l else l ++ [x]

/-- The `'state'` field of a pool entry: `'free'` or `'occupied'`. -/
inductive SlotStatus : Type
  | free
  | occupied
deriving DecidableEq

/-- A pool entry `{'id': ..., 'state': ...}` (both source files, lines 25-36). -/
structure TrackIdSlot : Type where
  id : Nat
  status : SlotStatus
deriving DecidableEq

/-- The scan inside `get_next_track_id`: first slot (in ascending index
order) whose state is `'free'`, returned with its index. -/
def get_next_aux : List TrackIdSlot → Nat → Option (Nat × Nat)
  | [], _ => none
  | sl :: rest, idx =>
    if sl.status = SlotStatus.free then some (sl.id, idx)
    else get_next_aux rest (idx + 1)

/-- `get_next_track_id(track_id_list)` (both source files, lines 24-32):
flip the first free slot to occupied and return `(id, idx)`; if none is
free, append a fresh slot with id `len(track_id_list) + 1`. -/
def get_next_track_id (l : List TrackIdSlot) : (Nat × Nat) × List TrackIdSlot :=
  match get_next_aux l 0 with
  | some (i, idx) => ((i, idx), l.set idx ⟨i, SlotStatus.occupied⟩)
  | none => ((l.length + 1, l.length), l ++ [⟨l.length + 1, SlotStatus.occupied⟩])

/-- `release_track_id(track_id_list, idx)` (both source files, lines 34-36):
mark the slot at `idx` as free; `none` models the `IndexError` for an
out-of-range index. -/
def release_track_id (l : List TrackIdSlot) (idx : Nat) : Option (List TrackIdSlot) :=
  if h : idx < l.length then
    some (l.set idx ⟨(l.get ⟨idx, h⟩).id, SlotStatus.free⟩)
  else none

/-- `select_initiation_mode(mode)` (test1.py lines 136-144, test4_2.py lines
159-167); `none` models the raised `ValueError`. -/
def select_initiation_mode (mode : String) : Option Nat :=
  if mode = "3-state" then some 3
  else if mode = "5-state" then some 5
  else if mode = "7-state" then some 7
  else none

/-- The per-measurement loop of `initialize_tracks`: process measurements in
stream order, stopping with `none` as soon as a step raises. -/
def foldSteps {σ α : Type} (f : σ → α → Option σ) : σ → List α → Option σ
  | s, [] => some s
  | s, a :: rest =>
    match f s a with
    | none => none
    | some s1 => foldSteps f s1 rest

namespace T1

/-- `state_progression` of test1.py (lines 48-52); `none` models the
`KeyError` for a key other than 3, 5, 7. -/
def state_progression (ft : Nat) : Option (List String) :=
  if ft = 3 then some ["Pos", "Tentative", "Firm"]
  else if ft = 5 then some ["Pos", "Pos", "Tentative", "Tentative", "Firm"]
  else if ft = 7 then some ["Pos", "Pos", "Tentative", "Tentative", "Tentative", "Firm"]
  else none

/-- A track record of test1.py (lines 90-94): id, state label, and the list
of raw measurements (most recent last). -/
structure Track (M : Type) : Type where
  id : Nat
  state : String
  measurements : List M
deriving DecidableEq

/-- Placeholder used with `List.getD` at indices that are known to be in
range (test1.py never reads a track at an out-of-range index). -/
def dummyTrack {M : Type} : Track M := ⟨0, "", []⟩

/-- The mutable state of `initialize_tracks` in test1.py (lines 40-45):
the track list, the id pool, and the miss/hit dicts keyed by track id,
plus the `firm_ids` set. -/
structure S (M : Type) : Type where
  tracks : List (Track M)
  track_id_list : List TrackIdSlot
  miss_counts : List (Nat × Nat)
  hit_counts : List (Nat × Nat)
  firm_ids : List Nat
deriving DecidableEq

/-- Initial state of test1.py's `initialize_tracks`. -/
def initState {M : Type} : S M := ⟨[], [], [], [], []⟩

/-- The inline miss-threshold decision of test1.py (lines 107-115):
mode-independent, with `firm_threshold` as fallback for unknown labels. -/
def miss_threshold (current_state : String) (firm_threshold : Nat) : Nat :=
  if current_state = "Pos" then 1
  else if current_state = "Tentative" then 2
  else if current_state = "Firm" then 3
  else firm_threshold

/-- The association scan of test1.py (lines 62-73): index of the first
track whose last stored measurement gates against the current measurement.
`some none` = no track gates; outer `none` models the `IndexError` of
`track['measurements'][-1]` on an empty history reached before a match. -/
def find_gating {M : Type} (gate : M → M → Bool) (m : M) :
    List (Track M) → Option (Option Nat)
  | [] => some none
  | t :: rest =>
    match t.measurements.getLast? with
    | none => none
    | some last =>
      if gate m last then some (some 0)
      else (find_gating gate m rest).map (fun o => o.map (· + 1))

/-- The eviction scan of test1.py (lines 99-120).  Python iterates the track
list by an internal index while `tracks.remove(track)` may shrink it, so the
loop is embedded with the explicit index `j` and a fuel argument `n` that is
initialised to the list length (the index only grows and the list never
grows, so `tracks.length` iterations always suffice).  `none` models the
`ValueError` of `track_id_list.index(...)` when no matching occupied slot
exists. -/
def evict_pass {M : Type} [DecidableEq M] (ft : Nat) (assigned : Bool) :
    Nat → Nat → List (Track M) → List TrackIdSlot → List (Nat × Nat) →
    Option (List (Track M) × List TrackIdSlot × List (Nat × Nat))
  | 0, _, tracks, pool, miss => some (tracks, pool, miss)
  | n + 1, j, tracks, pool, miss =>
    if h : j < tracks.length then
      let track := tracks.get ⟨j, h⟩
      if assigned = false ∧ 0 < dgetD miss track.id 0 then
        let miss1 := dset miss track.id (dgetD miss track.id 0 + 1)
        let thr := miss_threshold track.state ft
        if thr ≤ dgetD miss1 track.id 0 then
          match get_next_aux_find pool track.id with
          | none => none
          | some idx =>
            match release_track_id pool idx with
            | none => none
            | some pool1 => evict_pass ft assigned n (j + 1) (tracks.erase track) pool1 miss1
        else evict_pass ft assigned n (j + 1) tracks pool miss1
      else evict_pass ft assigned n (j + 1) tracks pool miss
    else some (tracks, pool, miss)
where
  /-- `track_id_list.index({'id': id, 'state': 'occupied'})`. -/
  get_next_aux_find (pool : List TrackIdSlot) (i : Nat) : Option Nat :=
    pool.findIdx? (fun sl => sl = ⟨i, SlotStatus.occupied⟩)

/-- The hit-update block of test1.py (lines 74-86) applied to the matched
track at index `j`: append the measurement, bump the hit count, reset the
miss count, and update the state label from the progression ladder
(`Firm` once the hit count reaches `firm_threshold`).  `none` models the
`KeyError` of `hit_counts[track['id']]` on a missing key. -/
def hit_update {M : Type} (ft : Nat) (prog : List String) (s : S M) (m : M)
    (j : Nat) : Option (S M) :=
  let t := s.tracks.getD j dummyTrack
  match dlookup s.hit_counts t.id with
  | none => none
  | some hc =>
    let h1 := hc + 1
    let st1 := if h1 < prog.length then prog.getD (h1 - 1) "" else t.state
    let firm1 := if ft ≤ h1 then sinsert s.firm_ids t.id else s.firm_ids
    let st2 := if ft ≤ h1 then "Firm" else st1
    let t1 : Track M := ⟨t.id, st2, t.measurements ++ [m]⟩
    some ⟨s.tracks.set j t1, s.track_id_list, dset s.miss_counts t.id 0,
          dset s.hit_counts t.id h1, firm1⟩

/-- The track-creation block of test1.py (lines 88-97): allocate an id from
the pool and append a fresh track with the first progression state, hit
count 1 and miss count 0.  `none` models the `IndexError` of
`progression_states[0]` on an empty progression. -/
def create_track {M : Type} (prog : List String) (s : S M) (m : M) :
    Option (S M) :=
  match prog.head? with
  | none => none
  | some st0 =>
    let a := get_next_track_id s.track_id_list
    let nid := a.1.1
    some ⟨s.tracks ++ [⟨nid, st0, [m]⟩], a.2, dset s.miss_counts nid 0,
          dset s.hit_counts nid 1, s.firm_ids⟩

/-- One iteration of the measurement loop of test1.py (lines 55-120):
association (first gating track wins, otherwise a new track is created),
then the eviction pass over the updated state. -/
def step {M : Type} [DecidableEq M] (gate : M → M → Bool) (ft : Nat)
    (prog : List String) (s : S M) (m : M) : Option (S M) :=
  match find_gating gate m s.tracks with
  | none => none
  | some (some j) =>
    match hit_update ft prog s m j with
    | none => none
    | some s1 =>
      (evict_pass ft true s1.tracks.length 0 s1.tracks s1.track_id_list s1.miss_counts).map
        (fun r => ⟨r.1, r.2.1, r.2.2, s1.hit_counts, s1.firm_ids⟩)
  | some none =>
    match create_track prog s m with
    | none => none
    | some s1 =>
      (evict_pass ft false s1.tracks.length 0 s1.tracks s1.track_id_list s1.miss_counts).map
        (fun r => ⟨r.1, r.2.1, r.2.2, s1.hit_counts, s1.firm_ids⟩)

/-- `initialize_tracks` of test1.py (lines 39-122), with the gating
predicate abstracted as `gate`. -/
def initialize_tracks {M : Type} [DecidableEq M] (gate : M → M → Bool)
    (ft : Nat) (ms : List M) : Option (S M) :=
  match state_progression ft with
  | none => none
  | some prog => foldSteps (step gate ft prog) initState ms

end T1

namespace T42

/-- `state_progression` of test4_2.py (lines 49-53); `none` models the
`KeyError` for a key other than 3, 5, 7. -/
def state_progression (ft : Nat) : Option (List String) :=
  if ft = 3 then some ["Poss1", "Tentative1", "Firm"]
  else if ft = 5 then some ["Poss1", "Poss2", "Tentative1", "Tentative2", "Firm"]
  else if ft = 7 then
    some ["Poss1", "Poss2", "Tentative1", "Tentative2", "Tentative3", "Firm"]
  else none

/-- Python's `s.startswith(p)` (the byte-level `String.startsWith` does
not reduce inside the kernel, so the prefix test is made on the character
lists). -/
def pyStartsWith (s p : String) : Bool :=
  p.data.isPrefixOf s.data

/-- `get_miss_threshold(current_state, firm_threshold)` of test4_2.py
(lines 57-63); `none` models Python's implicit `None` result for a label
matching no branch (which makes the later `>=` comparison raise). -/
def get_miss_threshold (current_state : String) (firm_threshold : Nat) : Option Nat :=
  if pyStartsWith current_state "Poss" then some 1
  else if pyStartsWith current_state "Tentative" then
    some (if firm_threshold = 3 then 2 else 3)
  else if current_state = "Firm" then some (if firm_threshold = 3 then 3 else 5)
  else none

/-- A track record of test4_2.py (lines 114-117): id and the history of
`(measurement, state-at-time)` pairs. -/
structure Track (M : Type) : Type where
  track_id : Nat
  measurements : List (M × String)
deriving DecidableEq

/-- The mutable state of `initialize_tracks` in test4_2.py (lines 40-46):
released tracks stay in the list as `None`; the bookkeeping dicts are keyed
by the numeric indices the source uses (`new_track_idx` at creation, the
enumeration index of `tracks` everywhere else). -/
structure S (M : Type) : Type where
  tracks : List (Option (Track M))
  track_id_list : List TrackIdSlot
  miss_counts : List (Nat × Nat)
  hit_counts : List (Nat × Nat)
  tentative_ids : List Nat
  firm_ids : List Nat
  state_map : List (Nat × String)
deriving DecidableEq

/-- Initial state of test4_2.py's `initialize_tracks`. -/
def initState {M : Type} : S M := ⟨[], [], [], [], [], [], []⟩

/-- The association loop of test4_2.py (lines 72-109): scan the track list
(with its enumeration index `j`), skipping `None` entries, and perform the
full hit-update block on the first track whose last history entry gates.
Returns the updated state and the `assigned` flag; `none` models the
exceptions of `measurements[-1]` on an empty history, of
`hit_counts[track_id]` on a missing key, and of `state_map[track_id]` on a
missing key (line 107). -/
def assoc_scan {M : Type} (gate : M → M → Bool) (ft : Nat) (prog : List String)
    (m : M) (s : S M) : List (Option (Track M)) → Nat → Option (S M × Bool)
  | [], _ => some (s, false)
  | none :: rest, j => assoc_scan gate ft prog m s rest (j + 1)
  | some tr :: rest, j =>
    match tr.measurements.getLast? with
    | none => none
    | some lastEntry =>
      if gate m lastEntry.1 then
        match
          (if j ∈ s.firm_ids then some s
           else if j ∈ s.tentative_ids then
             match dlookup s.hit_counts j with
             | none => none
             | some hc =>
               let h1 := hc + 1
               let hits1 := dset s.hit_counts j h1
               let miss1 := dset s.miss_counts j 0
               let sm1 :=
                 if h1 < prog.length then dset s.state_map j (prog.getD (h1 - 1) "")
                 else s.state_map
               if ft ≤ h1 then
                 some { s with hit_counts := hits1, miss_counts := miss1,
                               firm_ids := sinsert s.firm_ids j,
                               state_map := dset sm1 j "Firm" }
               else
                 some { s with hit_counts := hits1, miss_counts := miss1,
                               state_map := sm1 }
           else
             match prog.head? with
             | none => none
             | some st0 =>
               some { s with tentative_ids := sinsert s.tentative_ids j,
                             hit_counts := dset s.hit_counts j 1,
                             miss_counts := dset s.miss_counts j 0,
                             state_map := dset s.state_map j st0 }) with
        | none => none
        | some s1 =>
          match dlookup s1.state_map j with
          | none => none
          | some stv =>
            some ({ s1 with
                      tracks := s1.tracks.set j (some ⟨tr.track_id, tr.measurements ++ [(m, stv)]⟩) },
                  true)
      else assoc_scan gate ft prog m s rest (j + 1)

/-- The eviction loop of test4_2.py (lines 123-142), iterated by the
enumeration index `j` with a fuel argument initialised to the (constant)
track-list length.  `none` models the `AttributeError` of
`None.startswith(...)` when `state_map.get(j)` is `None`, the `TypeError`
of comparing against a `None` threshold, the `KeyError` of
`miss_counts[j]`, and the `IndexError` of releasing an out-of-range pool
index. -/
def evict_loop {M : Type} (ft : Nat) (assigned : Bool) (newId : Nat) :
    Nat → Nat → S M → Option (S M)
  | 0, _, s => some s
  | n + 1, j, s =>
    if h : j < s.tracks.length then
      match s.tracks.get ⟨j, h⟩ with
      | none => evict_loop ft assigned newId n (j + 1) s
      | some tr =>
        match dlookup s.state_map j with
        | none => none
        | some st =>
          match get_miss_threshold st ft with
          | none => none
          | some thr =>
            match
              (if assigned = false ∧ tr.track_id = newId then
                 (dlookup s.miss_counts j).map (fun v => dset s.miss_counts j (v + 1))
               else some s.miss_counts) with
            | none => none
            | some miss1 =>
              match dlookup miss1 j with
              | none => none
              | some mv =>
                if thr ≤ mv then
                  match release_track_id s.track_id_list j with
                  | none => none
                  | some pool1 =>
                    evict_loop ft assigned newId n (j + 1)
                      { s with tracks := s.tracks.set j none,
                               track_id_list := pool1,
                               miss_counts := miss1,
                               state_map := dpop s.state_map j }
                else evict_loop ft assigned newId n (j + 1) { s with miss_counts := miss1 }
    else some s

/-- One iteration of the measurement loop of test4_2.py (lines 65-142). -/
def step {M : Type} (gate : M → M → Bool) (ft : Nat) (prog : List String)
    (s : S M) (m : M) : Option (S M) :=
  match assoc_scan gate ft prog m s s.tracks 0 with
  | none => none
  | some (s1, assigned) =>
    match
      (if assigned then some (s1, 0)
       else
         match prog.head? with
         | none => none
         | some st0 =>
           let a := get_next_track_id s1.track_id_list
           let nid := a.1.1
           let nidx := a.1.2
           let pool1 := a.2
           some ({ tracks := s1.tracks ++ [some ⟨nid, [(m, st0)]⟩],
                   track_id_list := pool1,
                   miss_counts := dset s1.miss_counts nidx 0,
                   hit_counts := dset s1.hit_counts nidx 1,
                   tentative_ids := sinsert s1.tentative_ids nidx,
                   firm_ids := s1.firm_ids,
                   state_map := dset s1.state_map nidx st0 }, nid)) with
    | none => none
    | some (s2, newId) => evict_loop ft assigned newId s2.tracks.length 0 s2

/-- `initialize_tracks` of test4_2.py (lines 39-144), with the gating
predicate abstracted as `gate`. -/
def initialize_tracks {M : Type} (gate : M → M → Bool) (ft : Nat)
    (ms : List M) : Option (S M) :=
  match state_progression ft with
  | none => none
  | some prog => foldSteps (step gate ft prog) initState ms

end T42

/-- The call order of `execute_track_initialization` in test1.py (lines
253-268): the mode is validated by `select_initiation_mode` before
`initialize_tracks` sees any measurement. -/
def T1.execute_track_initialization {M : Type} [DecidableEq M]
    (gate : M → M → Bool) (mode : String) (ms : List M) : Option (T1.S M) :=
  match select_initiation_mode mode with
  | none => none
  | some ft => T1.initialize_tracks gate ft ms

/-- The call order of `execute_track_initialization` in test4_2.py (lines
270-292): the mode is validated by `select_initiation_mode` before
`initialize_tracks` sees any measurement. -/
def T42.execute_track_initialization {M : Type}
    (gate : M → M → Bool) (mode : String) (ms : List M) : Option (T42.S M) :=
  match select_initiation_mode mode with
  | none => none
  | some ft => T42.initialize_tracks gate ft ms

section DictLemmas

variable {β : Type}

theorem dlookup_dset_self (d : List (Nat × β)) (k : Nat) (v : β) :
    dlookup (dset d k v) k = some v := by
  induction d with
  | nil => simp [dset, dlookup]
  | cons p rest ih =>
    by_cases h : p.1 = k
    · simp [dset, h, dlookup]
    · simp [dset, h, dlookup, ih]

theorem dlookup_dset_ne (d : List (Nat × β)) (k : Nat) (v : β) (k2 : Nat)
    (h : k2 ≠ k) : dlookup (dset d k v) k2 = dlookup d k2 := by
  induction d with
  | nil =>
    simp only [dset, dlookup]
    rw [if_neg (fun h2 => h h2.symm)]
  | cons p rest ih =>
    by_cases hp : p.1 = k
    · subst hp
      simp only [dset, if_pos rfl, dlookup]
      rw [if_neg (fun h2 => h h2.symm), if_neg (fun h2 => h h2.symm)]
    · simp only [dset, if_neg hp, dlookup]
      by_cases hq : p.1 = k2
      · simp [hq]
      · simp [hq, ih]

theorem dlookup_mem (d : List (Nat × β)) (k : Nat) (v : β)
    (h : dlookup d k = some v) : (k, v) ∈ d := by
  induction d with
  | nil => simp [dlookup] at h
  | cons p rest ih =>
    by_cases hp : p.1 = k
    · simp only [dlookup, if_pos hp] at h
      cases h
      cases p
      subst hp
      exact List.mem_cons_self _ _
    · simp only [dlookup, if_neg hp] at h
      exact List.mem_cons_of_mem _ (ih h)

theorem mem_dset (d : List (Nat × β)) (k : Nat) (v : β) (p : Nat × β)
    (h : p ∈ dset d k v) : p = (k, v) ∨ p ∈ d := by
  induction d with
  | nil => simpa [dset] using h
  | cons q rest ih =>
    by_cases hq : q.1 = k
    · simp only [dset, if_pos hq] at h
      rcases List.mem_cons.1 h with h | h
      · exact Or.inl h
      · exact Or.inr (List.mem_cons_of_mem _ h)
    · simp only [dset, if_neg hq] at h
      rcases List.mem_cons.1 h with h | h
      · exact Or.inr (h ▸ List.mem_cons_self _ _)
      · rcases ih h with h | h
        · exact Or.inl h
        · exact Or.inr (List.mem_cons_of_mem _ h)

theorem dgetD_zero (d : List (Nat × Nat)) (k : Nat)
    (h : ∀ p ∈ d, p.2 = 0) : dgetD d k 0 = 0 := by
  unfold dgetD
  cases hl : dlookup d k with
  | none => rfl
  | some v => simpa using h _ (dlookup_mem d k v hl)

end DictLemmas

section EvictT1

variable {M : Type} [DecidableEq M]

/-- With `assigned = true`, the eviction pass of test1.py touches nothing:
every statement in its body is guarded by `if not assigned and ...`. -/
theorem evict_pass_assigned_true (ft : Nat) :
    ∀ (n j : Nat) (tracks : List (T1.Track M)) (pool : List TrackIdSlot)
      (miss : List (Nat × Nat)),
      T1.evict_pass ft true n j tracks pool miss = some (tracks, pool, miss) := by
  intro n
  induction n with
  | zero => intro j tracks pool miss; rfl
  | succ n ih =>
    intro j tracks pool miss
    rw [T1.evict_pass]
    split
    · rw [if_neg (by simp)]
      exact ih (j + 1) tracks pool miss
    · rfl

/-- When every recorded miss count is 0, the eviction pass of test1.py is
the identity: the guard `miss_counts.get(id, 0) > 0` always fails. -/
theorem evict_pass_miss_zero (ft : Nat) (assigned : Bool)
    (miss : List (Nat × Nat)) (hm : ∀ p ∈ miss, p.2 = 0) :
    ∀ (n j : Nat) (tracks : List (T1.Track M)) (pool : List TrackIdSlot),
      T1.evict_pass ft assigned n j tracks pool miss = some (tracks, pool, miss) := by
  intro n
  induction n with
  | zero => intro j tracks pool; rfl
  | succ n ih =>
    intro j tracks pool
    rw [T1.evict_pass]
    split
    · rw [if_neg (by simp [dgetD_zero miss _ hm])]
      exact ih (j + 1) tracks pool
    · rfl

end EvictT1

section PoolLemmas

theorem list_set_self {α : Type} (l : List α) (j : Nat) (a : α)
    (h : j < l.length) (hj : l.get ⟨j, h⟩ = a) : l.set j a = l := by
  induction l generalizing j with
  | nil => simp at h
  | cons x rest ih =>
    cases j with
    | zero => simpa using hj.symm
    | succ j =>
      simp only [List.set_cons_succ, List.cons.injEq, true_and]
      exact ih j (by simpa using h) hj

theorem list_set_append_middle {α : Type} (pre : List α) (a b : α) (post : List α) :
    (pre ++ a :: post).set pre.length b = pre ++ b :: post := by
  induction pre with
  | nil => rfl
  | cons x rest ih => simp [ih]

theorem get_next_aux_all_occupied (l : List TrackIdSlot)
    (h : ∀ x ∈ l, x.status = SlotStatus.occupied) :
    ∀ i : Nat, get_next_aux l i = none := by
  induction l with
  | nil => intro i; rfl
  | cons sl rest ih =>
    intro i
    rw [get_next_aux]
    rw [if_neg (by rw [h sl (List.mem_cons_self _ _)]; intro hc; cases hc)]
    exact ih (fun x hx => h x (List.mem_cons_of_mem _ hx)) (i + 1)

theorem get_next_aux_first_free (pre : List TrackIdSlot) (sl : TrackIdSlot)
    (post : List TrackIdSlot) (hpre : ∀ x ∈ pre, x.status = SlotStatus.occupied)
    (hsl : sl.status = SlotStatus.free) :
    ∀ i : Nat, get_next_aux (pre ++ sl :: post) i = some (sl.id, i + pre.length) := by
  induction pre with
  | nil =>
    intro i
    rw [List.nil_append, get_next_aux, if_pos hsl]
    simp
  | cons x rest ih =>
    intro i
    rw [List.cons_append, get_next_aux]
    rw [if_neg (by rw [hpre x (List.mem_cons_self _ _)]; intro hc; cases hc)]
    rw [ih (fun y hy => hpre y (List.mem_cons_of_mem _ hy)) (i + 1)]
    have harith : i + 1 + rest.length = i + (x :: rest).length := by
      simp [List.length_cons]
      omega
    rw [harith]

theorem get_next_aux_id (l : List TrackIdSlot) :
    ∀ (i0 i idx : Nat), get_next_aux l i0 = some (i, idx) →
      i0 ≤ idx ∧ ∃ h : idx - i0 < l.length,
        (l.get ⟨idx - i0, h⟩).id = i ∧ (l.get ⟨idx - i0, h⟩).status = SlotStatus.free := by
  induction l with
  | nil => intro i0 i idx h; cases h
  | cons sl rest ih =>
    intro i0 i idx h
    rw [get_next_aux] at h
    by_cases hf : sl.status = SlotStatus.free
    · rw [if_pos hf] at h
      cases h
      refine ⟨le_refl _, ?_⟩
      simp [hf]
    · rw [if_neg hf] at h
      obtain ⟨hle, hlt, hid, hst⟩ := ih (i0 + 1) i idx h
      refine ⟨by omega, ?_⟩
      have hd : idx - i0 = (idx - (i0 + 1)) + 1 := by omega
      rw [hd]
      refine ⟨by simpa using Nat.succ_lt_succ hlt, ?_⟩
      simpa using ⟨hid, hst⟩

/-- The pool invariant of the implicit pool contract: the slot stored at
index `i` of the track-id list always carries id `i + 1`. -/
def poolInv (l : List TrackIdSlot) : Prop :=
  ∀ (i : Nat) (h : i < l.length), (l.get ⟨i, h⟩).id = i + 1

theorem poolInv_set (l : List TrackIdSlot) (idx : Nat) (i : Nat)
    (st : SlotStatus) (hinv : poolInv l) (hlt : idx < l.length)
    (hid : (l.get ⟨idx, hlt⟩).id = i) :
    poolInv (l.set idx ⟨i, st⟩) := by
  intro j hj
  have hj2 : j < l.length := by simpa using hj
  by_cases hcase : idx = j
  · subst hcase
    have : (l.set idx ⟨i, st⟩).get ⟨idx, hj⟩ = ⟨i, st⟩ := by simp
    rw [this]
    exact hid ▸ hinv idx hlt
  · have : (l.set idx ⟨i, st⟩).get ⟨j, hj⟩ = l.get ⟨j, hj2⟩ := by
      simp [List.getElem_set_of_ne hcase]
    rw [this]
    exact hinv j hj2

end PoolLemmas

theorem findIdx?_first {α : Type} (p : α → Bool) :
    ∀ (pk : List α) (x : α) (post : List α),
      (∀ a ∈ pk, p a = false) → p x = true →
      (pk ++ x :: post).findIdx? p = some pk.length := by
  intro pk
  induction pk with
  | nil =>
    intro x post _ hx
    simp [List.findIdx?_cons, hx]
  | cons a rest ih =>
    intro x post hpk hx
    have ha := hpk a (List.mem_cons_self _ _)
    simp [List.findIdx?_cons, ha,
      ih x post (fun b hb => hpk b (List.mem_cons_of_mem _ hb)) hx]

theorem getD_append_middle {α : Type} (pre : List α) (a : α) (post : List α)
    (d : α) : (pre ++ a :: post).getD pre.length d = a := by
  induction pre with
  | nil => rfl
  | cons x rest ih => simpa using ih

theorem get_append_middle {α : Type} (pre : List α) (a : α) (post : List α)
    (h : pre.length < (pre ++ a :: post).length) :
    (pre ++ a :: post).get ⟨pre.length, h⟩ = a := by
  have h2 := getD_append_middle pre a post a
  rw [List.getD_eq_get _ a h] at h2
  exact h2

/-- C6: `get_next_track_id` scans slots in ascending index order, flips the
first `Free` slot to `Occupied` and returns its id and index; when no slot
is free it appends a new slot with id `len(slots) + 1` marked `Occupied`,
so a released slot is always reused (lowest index first) before the pool
grows. -/
theorem C6_allocate_reuses_lowest_free :
    (∀ (pre : List TrackIdSlot) (sl : TrackIdSlot) (post : List TrackIdSlot),
        (∀ x ∈ pre, x.status = SlotStatus.occupied) →
        sl.status = SlotStatus.free →
        get_next_track_id (pre ++ sl :: post) =
          ((sl.id, pre.length),
            pre ++ (⟨sl.id, SlotStatus.occupied⟩ : TrackIdSlot) :: post))
    ∧ (∀ l : List TrackIdSlot, (∀ x ∈ l, x.status = SlotStatus.occupied) →
        get_next_track_id l =
          ((l.length + 1, l.length), l ++ [⟨l.length + 1, SlotStatus.occupied⟩])) := by
  constructor
  · intro pre sl post hpre hsl
    unfold get_next_track_id
    rw [get_next_aux_first_free pre sl post hpre hsl 0]
    simp [list_set_append_middle]
  · intro l hl
    unfold get_next_track_id
    rw [get_next_aux_all_occupied l hl 0]

/-- Witness for C6 at a concrete pool: slot index 1 is the lowest free slot
and is reused; a fully occupied pool grows by one slot. -/
theorem C6_allocate_reuses_lowest_free_witness :
    get_next_track_id
        [⟨1, SlotStatus.occupied⟩, ⟨2, SlotStatus.free⟩, ⟨3, SlotStatus.free⟩] =
      ((2, 1), [⟨1, SlotStatus.occupied⟩, ⟨2, SlotStatus.occupied⟩, ⟨3, SlotStatus.free⟩])
    ∧ get_next_track_id [⟨1, SlotStatus.occupied⟩] =
      ((2, 1), [⟨1, SlotStatus.occupied⟩, ⟨2, SlotStatus.occupied⟩]) := by
  constructor
  · exact C6_allocate_reuses_lowest_free.1 [⟨1, SlotStatus.occupied⟩]
      ⟨2, SlotStatus.free⟩ [⟨3, SlotStatus.free⟩] (by decide) (by decide)
  · have h := C6_allocate_reuses_lowest_free.2 [⟨1, SlotStatus.occupied⟩] (by decide)
    simpa using h

/-- C9: the pool invariant (slot at index `i` carries id `i + 1`, hence ids
are exactly `1..len(slots)` in order and occupied slots have pairwise
distinct ids) is kept by every allocate and release. -/
theorem C9_pool_slot_ids :
    (∀ l : List TrackIdSlot, poolInv l → poolInv (get_next_track_id l).2)
    ∧ (∀ (l : List TrackIdSlot) (idx : Nat) (l2 : List TrackIdSlot),
        poolInv l → release_track_id l idx = some l2 → poolInv l2)
    ∧ (∀ l : List TrackIdSlot, poolInv l →
        ∀ (i j : Nat) (hi : i < l.length) (hj : j < l.length),
          (l.get ⟨i, hi⟩).id = (l.get ⟨j, hj⟩).id → i = j) := by
  refine ⟨?_, ?_, ?_⟩
  · intro l hinv
    unfold get_next_track_id
    cases h : get_next_aux l 0 with
    | none =>
      intro i hi
      have hi2 : i < l.length + 1 := by simpa using hi
      by_cases hcase : i < l.length
      · have hg : (l ++ [(⟨l.length + 1, SlotStatus.occupied⟩ : TrackIdSlot)]).get ⟨i, hi⟩ =
            l.get ⟨i, hcase⟩ := by
          simp [List.getElem_append_left hcase]
        rw [hg]
        exact hinv i hcase
      · have hieq : i = l.length := by omega
        subst hieq
        simp
    | some p =>
      obtain ⟨i2, idx⟩ := p
      obtain ⟨-, hlt, hid, -⟩ := get_next_aux_id l 0 i2 idx h
      simp only [Nat.sub_zero] at hlt hid
      exact poolInv_set l idx i2 SlotStatus.occupied hinv hlt hid
  · intro l idx l2 hinv hrel
    unfold release_track_id at hrel
    split at hrel
    · cases hrel
      exact poolInv_set l idx _ SlotStatus.free hinv (by assumption) rfl
    · cases hrel
  · intro l hinv i j hi hj hids
    have h1 := hinv i hi
    have h2 := hinv j hj
    omega

/-- Witness for C9 at a concrete pool: the invariant survives one allocate
(reusing the free slot) and one release. -/
theorem C9_pool_slot_ids_witness :
    poolInv (get_next_track_id
      [⟨1, SlotStatus.occupied⟩, ⟨2, SlotStatus.free⟩]).2
    ∧ poolInv [⟨1, SlotStatus.occupied⟩, ⟨2, SlotStatus.free⟩] := by
  have hpool : poolInv [⟨1, SlotStatus.occupied⟩, ⟨2, SlotStatus.free⟩] := by
    intro i h
    have h2 : i < 2 := by simpa using h
    interval_cases i <;> rfl
  exact ⟨C9_pool_slot_ids.1 _ hpool, hpool⟩

/-- C8: any mode string other than the three recognized ones makes
`select_initiation_mode` fail, and in the `execute_track_initialization`
flow of both variants this failure precedes all measurement processing, so
no track table is produced at all. -/
theorem C8_invalid_mode_fails_fast (mode : String)
    (h3 : mode ≠ "3-state") (h5 : mode ≠ "5-state") (h7 : mode ≠ "7-state") :
    select_initiation_mode mode = none
    ∧ (∀ (M : Type) (inst : DecidableEq M) (gate : M → M → Bool) (ms : List M),
        @T1.execute_track_initialization M inst gate mode ms = none)
    ∧ (∀ (M : Type) (gate : M → M → Bool) (ms : List M),
        T42.execute_track_initialization gate mode ms = none) := by
  have hsel : select_initiation_mode mode = none := by
    unfold select_initiation_mode
    rw [if_neg h3, if_neg h5, if_neg h7]
  refine ⟨hsel, ?_, ?_⟩
  · intro M inst gate ms
    unfold T1.execute_track_initialization
    rw [hsel]
  · intro M gate ms
    unfold T42.execute_track_initialization
    rw [hsel]

/-- Witness for C8 at the concrete invalid mode string `"9-state"`. -/
theorem C8_invalid_mode_fails_fast_witness :
    select_initiation_mode "9-state" = none
    ∧ T1.execute_track_initialization (fun (_ _ : Nat) => true) "9-state" [0] = none
    ∧ T42.execute_track_initialization (fun (_ _ : Nat) => true) "9-state" [0] = none := by
  have h := C8_invalid_mode_fails_fast "9-state" (by decide) (by decide) (by decide)
  exact ⟨h.1, h.2.1 Nat _ _ _, h.2.2 Nat _ _⟩

/-- One iteration of test1.py's eviction scan (lines 100-120) on a track
whose incremented miss count reaches its threshold: the track is removed
from the active list (`tracks.remove`) and the occupied slot carrying the
track's own id — located by `track_id_list.index({'id': id, 'state':
'occupied'})` — is flipped to free, after which the scan continues. -/
theorem evict_pass_removes {M : Type} [inst : DecidableEq M] (ft n j : Nat)
    (tracks : List (T1.Track M)) (pool : List TrackIdSlot)
    (miss : List (Nat × Nat)) (t : T1.Track M) (mv : Nat)
    (pk post2 : List TrackIdSlot)
    (h : j < tracks.length) (ht : tracks.get ⟨j, h⟩ = t)
    (hmv : dgetD miss t.id 0 = mv) (hpos : 0 < mv)
    (hthr : T1.miss_threshold t.state ft ≤ mv + 1)
    (hpool : pool = pk ++ (⟨t.id, SlotStatus.occupied⟩ : TrackIdSlot) :: post2)
    (hpk : ∀ sl ∈ pk, sl ≠ (⟨t.id, SlotStatus.occupied⟩ : TrackIdSlot)) :
    T1.evict_pass ft false (n + 1) j tracks pool miss =
      T1.evict_pass ft false n (j + 1) (tracks.erase t)
        (pk ++ (⟨t.id, SlotStatus.free⟩ : TrackIdSlot) :: post2)
        (dset miss t.id (mv + 1)) := by
  subst hpool
  have hfind : T1.evict_pass.get_next_aux_find
      (pk ++ (⟨t.id, SlotStatus.occupied⟩ : TrackIdSlot) :: post2) t.id =
        some pk.length := by
    unfold T1.evict_pass.get_next_aux_find
    apply findIdx?_first
    · intro a ha
      simp [hpk a ha]
    · simp
  have hlen : pk.length <
      (pk ++ (⟨t.id, SlotStatus.occupied⟩ : TrackIdSlot) :: post2).length := by
    simp
  have hrel : release_track_id
      (pk ++ (⟨t.id, SlotStatus.occupied⟩ : TrackIdSlot) :: post2) pk.length =
        some (pk ++ (⟨t.id, SlotStatus.free⟩ : TrackIdSlot) :: post2) := by
    unfold release_track_id
    rw [dif_pos hlen, get_append_middle pk _ post2 hlen, list_set_append_middle]
  have hgd : dgetD (dset miss t.id (mv + 1)) t.id 0 = mv + 1 := by
    unfold dgetD
    rw [dlookup_dset_self]
    rfl
  rw [T1.evict_pass]
  rw [dif_pos h]
  simp only [ht, hmv]
  rw [if_pos (show True ∧ 0 < mv from ⟨trivial, hpos⟩)]
  simp only [hgd]
  rw [if_pos hthr]
  simp only [hfind, hrel]

/-- One iteration of test4_2.py's eviction loop (lines 123-142) on a live
track whose miss count has reached its threshold (here in an `assigned`
cycle, where the increment guard is short-circuited but the threshold check
still runs): the track's list entry becomes `None`, the pool slot at the
track's position index `j` is released, and its state-map entry is popped,
after which the loop continues. -/
theorem evict_loop_removes {M : Type} (ft newId n j : Nat) (s : T42.S M)
    (tr : T42.Track M) (st : String) (thr mv : Nat) (pool2 : List TrackIdSlot)
    (h : j < s.tracks.length) (htr : s.tracks.get ⟨j, h⟩ = some tr)
    (hst : dlookup s.state_map j = some st)
    (hthr : T42.get_miss_threshold st ft = some thr)
    (hmv : dlookup s.miss_counts j = some mv) (hfire : thr ≤ mv)
    (hrel : release_track_id s.track_id_list j = some pool2) :
    T42.evict_loop ft true newId (n + 1) j s =
      T42.evict_loop ft true newId n (j + 1)
        { s with tracks := s.tracks.set j none, track_id_list := pool2,
                 state_map := dpop s.state_map j } := by
  rw [T42.evict_loop]
  rw [dif_pos h]
  simp only [htr, hst, hthr]
  rw [if_neg (show ¬(true = false ∧ tr.track_id = newId) from fun hx => by cases hx.1)]
  simp only [hmv]
  rw [if_pos hfire]
  simp only [hrel]

/-- C2 (amended): the eviction threshold table, and the
removal-and-release behaviour at the threshold.  First conjunct: in the
test4_2.py variant `get_miss_threshold` implements the mode-dependent table
of the claim (`Poss*` 1 in all modes; `Tentative*` 2 in ThreeState and 3 in
FiveState/SevenState; `Firm` 3 in ThreeState and 5 in FiveState/
SevenState), enumerated over every state label of each mode's progression,
while in the test1.py variant the inline thresholds are mode-independent
(`Pos` 1, `Tentative` 2, `Firm` 3 in every mode).  Second conjunct: in
test1.py, when the incremented miss count reaches the threshold for the
track's state the track is removed from the active list and the occupied
slot carrying the track's own id is released.  Third conjunct: in
test4_2.py, when the miss count reaches the threshold the track's list
entry becomes `None` and the pool slot at the track's position index is
released. -/
theorem C2_miss_threshold_table :
    ((T42.get_miss_threshold "Poss1" 3 = some 1
      ∧ T42.get_miss_threshold "Tentative1" 3 = some 2
      ∧ T42.get_miss_threshold "Firm" 3 = some 3)
    ∧ (T42.get_miss_threshold "Poss1" 5 = some 1
      ∧ T42.get_miss_threshold "Poss2" 5 = some 1
      ∧ T42.get_miss_threshold "Tentative1" 5 = some 3
      ∧ T42.get_miss_threshold "Tentative2" 5 = some 3
      ∧ T42.get_miss_threshold "Firm" 5 = some 5)
    ∧ (T42.get_miss_threshold "Poss1" 7 = some 1
      ∧ T42.get_miss_threshold "Poss2" 7 = some 1
      ∧ T42.get_miss_threshold "Tentative1" 7 = some 3
      ∧ T42.get_miss_threshold "Tentative2" 7 = some 3
      ∧ T42.get_miss_threshold "Tentative3" 7 = some 3
      ∧ T42.get_miss_threshold "Firm" 7 = some 5)
    ∧ (T1.miss_threshold "Pos" 3 = 1
      ∧ T1.miss_threshold "Tentative" 3 = 2
      ∧ T1.miss_threshold "Firm" 3 = 3
      ∧ T1.miss_threshold "Pos" 5 = 1
      ∧ T1.miss_threshold "Tentative" 5 = 2
      ∧ T1.miss_threshold "Firm" 5 = 3
      ∧ T1.miss_threshold "Pos" 7 = 1
      ∧ T1.miss_threshold "Tentative" 7 = 2
      ∧ T1.miss_threshold "Firm" 7 = 3))
    ∧ (∀ (M : Type) [inst : DecidableEq M] (ft n j : Nat)
        (tracks : List (T1.Track M)) (pool : List TrackIdSlot)
        (miss : List (Nat × Nat)) (t : T1.Track M) (mv : Nat)
        (pk post2 : List TrackIdSlot) (h : j < tracks.length),
        tracks.get ⟨j, h⟩ = t →
        dgetD miss t.id 0 = mv → 0 < mv →
        T1.miss_threshold t.state ft ≤ mv + 1 →
        pool = pk ++ (⟨t.id, SlotStatus.occupied⟩ : TrackIdSlot) :: post2 →
        (∀ sl ∈ pk, sl ≠ (⟨t.id, SlotStatus.occupied⟩ : TrackIdSlot)) →
        T1.evict_pass ft false (n + 1) j tracks pool miss =
          T1.evict_pass ft false n (j + 1) (tracks.erase t)
            (pk ++ (⟨t.id, SlotStatus.free⟩ : TrackIdSlot) :: post2)
            (dset miss t.id (mv + 1)))
    ∧ (∀ (M : Type) (ft newId n j : Nat) (s : T42.S M) (tr : T42.Track M)
        (st : String) (thr mv : Nat) (pool2 : List TrackIdSlot)
        (h : j < s.tracks.length),
        s.tracks.get ⟨j, h⟩ = some tr →
        dlookup s.state_map j = some st →
        T42.get_miss_threshold st ft = some thr →
        dlookup s.miss_counts j = some mv →
        thr ≤ mv →
        release_track_id s.track_id_list j = some pool2 →
        T42.evict_loop ft true newId (n + 1) j s =
          T42.evict_loop ft true newId n (j + 1)
            { s with tracks := s.tracks.set j none, track_id_list := pool2,
                     state_map := dpop s.state_map j }) := by
  refine ⟨by decide, ?_, ?_⟩
  · intro M inst ft n j tracks pool miss t mv pk post2 h ht hmv hpos hthr hpool hpk
    exact evict_pass_removes ft n j tracks pool miss t mv pk post2 h ht hmv hpos
      hthr hpool hpk
  · intro M ft newId n j s tr st thr mv pool2 h htr hst hthr hmv hfire hrel
    exact evict_loop_removes ft newId n j s tr st thr mv pool2 h htr hst hthr
      hmv hfire hrel

/-- Witness for C2's removal conjuncts at concrete states: a `Pos` track of
test1.py with miss count 1 is erased and the slot with its id freed; a
`Poss1` track of test4_2.py with miss count at threshold has its entry set
to `None` and the slot at its position index freed. -/
theorem C2_miss_threshold_table_witness :
    T1.evict_pass 3 false 1 0 [(⟨1, "Pos", [0]⟩ : T1.Track Nat)]
        [⟨1, SlotStatus.occupied⟩] [(1, 1)] =
      T1.evict_pass 3 false 0 1
        ([(⟨1, "Pos", [0]⟩ : T1.Track Nat)].erase ⟨1, "Pos", [0]⟩)
        ([] ++ (⟨1, SlotStatus.free⟩ : TrackIdSlot) :: []) (dset [(1, 1)] 1 2)
    ∧ T42.evict_loop 3 true 0 1 0
        (⟨[some ⟨1, [(0, "Poss1")]⟩], [⟨1, SlotStatus.occupied⟩],
          [(0, 1)], [], [], [], [(0, "Poss1")]⟩ : T42.S Nat) =
      T42.evict_loop 3 true 0 0 1
        { (⟨[some ⟨1, [(0, "Poss1")]⟩], [⟨1, SlotStatus.occupied⟩],
            [(0, 1)], [], [], [], [(0, "Poss1")]⟩ : T42.S Nat) with
          tracks := [some ⟨1, [(0, "Poss1")]⟩].set 0 none,
          track_id_list := [⟨1, SlotStatus.free⟩],
          state_map := dpop [(0, "Poss1")] 0 } := by
  constructor
  · exact C2_miss_threshold_table.2.1 Nat 3 0 0 [⟨1, "Pos", [0]⟩]
      [⟨1, SlotStatus.occupied⟩] [(1, 1)] ⟨1, "Pos", [0]⟩ 1 [] []
      (by decide) rfl rfl (by decide) (by decide) rfl
      (by intro sl hsl; cases hsl)
  · exact C2_miss_threshold_table.2.2 Nat 3 0 0 0
      ⟨[some ⟨1, [(0, "Poss1")]⟩], [⟨1, SlotStatus.occupied⟩],
        [(0, 1)], [], [], [], [(0, "Poss1")]⟩
      ⟨1, [(0, "Poss1")]⟩ "Poss1" 1 1 [⟨1, SlotStatus.free⟩]
      (by decide) rfl rfl (by decide) rfl (by decide) (by decide)

/-- C2 counterexample: two facts refute the claim as stated.  First, in the
test1.py variant a track in the `Tentative` state in FiveState mode has
eviction threshold 2, not the 3 demanded by the claim's mode split.
Second, the claim's "its TrackId slot is released" fails on test4_2.py's
eviction pass: evicting the track with `track_id` 2 sitting at position 0
of the track list releases the pool slot at index 0 (id 1), leaving the
track's own slot (id 2) occupied. -/
theorem C2_miss_threshold_counterexample :
    T1.miss_threshold "Tentative" 5 ≠ 3
    ∧ T42.evict_loop 3 true 0 1 0
        (⟨[some ⟨2, [(0, "Poss1")]⟩],
          [⟨1, SlotStatus.occupied⟩, ⟨2, SlotStatus.occupied⟩],
          [(0, 1)], [], [], [], [(0, "Poss1")]⟩ : T42.S Nat) =
      some ⟨[none], [⟨1, SlotStatus.free⟩, ⟨2, SlotStatus.occupied⟩],
        [(0, 1)], [], [], [], []⟩ := by
  exact ⟨by decide, by decide⟩

/-- C1: evaluating test1.py's `initialize_tracks` on two never-gating
measurements in ThreeState mode.  The second measurement is processed with
track 1 active and unmatched, yet track 1's miss count stays 0 (the claim
demands 1): the increment is guarded by `miss_counts.get(id, 0) > 0`, which
never holds because every miss count starts at 0. -/
theorem C1_unmatched_track_not_incremented :
    (T1.initialize_tracks (fun (_ _ : Nat) => false) 3 [0, 1]).map
        (fun s => (s.tracks.map T1.Track.id, s.miss_counts)) =
      some ([1, 2], [(1, 0), (2, 0)]) := by
  decide

section ListHelpers

theorem mem_set_char {α : Type} (l : List α) (j : Nat) (a : α) (x : α)
    (hx : x ∈ l.set j a) :
    x = a ∨ ∃ (i : Nat) (hi : i < l.length), i ≠ j ∧ l.get ⟨i, hi⟩ = x := by
  obtain ⟨n, hget⟩ := List.mem_iff_get.1 hx
  obtain ⟨n, hn⟩ := n
  have hn2 : n < l.length := by simpa using hn
  by_cases hnj : n = j
  · subst hnj
    left
    rw [← hget]
    simp
  · right
    refine ⟨n, hn2, hnj, ?_⟩
    rw [← hget]
    simp [List.getElem_set_of_ne (fun hh : j = n => hnj hh.symm)]

theorem ids_ne_of_nodup {α β : Type} (f : α → β) (l : List α)
    (hnd : (l.map f).Nodup) (i j : Nat) (hi : i < l.length) (hj : j < l.length)
    (hne : i ≠ j) : f (l.get ⟨i, hi⟩) ≠ f (l.get ⟨j, hj⟩) := by
  intro heq
  have h1 : (l.map f).get ⟨i, by simpa using hi⟩ = (l.map f).get ⟨j, by simpa using hj⟩ := by
    rw [List.get_map, List.get_map]
    exact heq
  have h2 := hnd.get_inj_iff.1 h1
  exact hne (by simpa using congrArg Fin.val h2)

theorem map_set_comm {α β : Type} (f : α → β) (l : List α) (j : Nat) (a : α) :
    (l.set j a).map f = (l.map f).set j (f a) := by
  induction l generalizing j with
  | nil => rfl
  | cons x rest ih =>
    cases j with
    | zero => rfl
    | succ j => simp [ih]

end ListHelpers

namespace T1

/-- The state label maintained by the test1.py hit-update as a function of
the hit count `h`: `Firm` once `h` reaches `firm_threshold`, otherwise the
progression entry at index `min(h, len(progression) - 1) - 1` (0-based).
For the ThreeState and FiveState modes the ladder length equals the firm
threshold and this coincides with the spec formula
`progression[min(h, len(progression)) - 1]`; in SevenState mode the ladder
has 6 entries but the threshold is 7, so at `h = 6` the code keeps
`Tentative` instead of the spec formula's `Firm`. -/
def ladder_state (ft : Nat) (prog : List String) (h : Nat) : String :=
  if ft ≤ h then "Firm" else prog.getD (min h (prog.length - 1) - 1) ""

theorem ladder_state_one (ft : Nat) (prog : List String) (hft : 2 ≤ ft) :
    ladder_state ft prog 1 = prog.getD 0 "" := by
  unfold ladder_state
  rw [if_neg (by omega)]
  have hidx : min 1 (prog.length - 1) - 1 = 0 := by omega
  rw [hidx]

theorem ladder_state_hit (ft : Nat) (prog : List String) (h : Nat) :
    (if ft ≤ h + 1 then "Firm"
     else if h + 1 < prog.length then prog.getD (h + 1 - 1) "" else ladder_state ft prog h)
      = ladder_state ft prog (h + 1) := by
  by_cases h1 : ft ≤ h + 1
  · rw [if_pos h1]
    unfold ladder_state
    rw [if_pos h1]
  · rw [if_neg h1]
    by_cases h2 : h + 1 < prog.length
    · rw [if_pos h2]
      unfold ladder_state
      rw [if_neg h1]
      have hidx : min (h + 1) (prog.length - 1) - 1 = h + 1 - 1 := by omega
      rw [hidx]
    · rw [if_neg h2]
      unfold ladder_state
      have h3 : ¬ ft ≤ h := by omega
      rw [if_neg h3, if_neg h1]
      have hidx : min h (prog.length - 1) - 1 = min (h + 1) (prog.length - 1) - 1 := by
        omega
      rw [hidx]

/-- Run invariant of test1.py's `initialize_tracks`: the pool only ever
holds occupied slots (nothing is ever released), track ids are distinct and
drawn from the pool, every track's hit count equals its history length,
its state label follows the ladder formula, and every recorded miss count
is 0. -/
structure Inv {M : Type} (ft : Nat) (prog : List String) (s : S M) : Prop where
  pool_occ : ∀ sl ∈ s.track_id_list, sl.status = SlotStatus.occupied
  ids_nodup : (s.tracks.map Track.id).Nodup
  ids_le : ∀ t ∈ s.tracks, 1 ≤ t.id ∧ t.id ≤ s.track_id_list.length
  meas_ne : ∀ t ∈ s.tracks, t.measurements ≠ []
  hit_eq : ∀ t ∈ s.tracks, dlookup s.hit_counts t.id = some t.measurements.length
  state_eq : ∀ t ∈ s.tracks, t.state = ladder_state ft prog t.measurements.length
  miss_zero : ∀ p ∈ s.miss_counts, p.2 = 0

theorem find_gating_lt {M : Type} (gate : M → M → Bool) (m : M)
    (tracks : List (Track M)) :
    ∀ j : Nat, find_gating gate m tracks = some (some j) → j < tracks.length := by
  induction tracks with
  | nil => intro j h; cases h
  | cons t rest ih =>
    intro j h
    rw [find_gating] at h
    split at h
    · cases h
    · split at h
      · cases h
        simp
      · cases hr : find_gating gate m rest with
        | none => rw [hr] at h; cases h
        | some o =>
          rw [hr] at h
          cases o with
          | none => simp at h
          | some j2 =>
            simp only [Option.map_some'] at h
            cases h
            have := ih j2 hr
            simp
            omega

theorem hit_update_inv {M : Type} (ft : Nat) (prog : List String)
    (s s1 : S M) (m : M) (j : Nat) (hj : j < s.tracks.length)
    (hinv : Inv ft prog s) (hstep : hit_update ft prog s m j = some s1) :
    Inv ft prog s1 := by
  simp only [hit_update] at hstep
  split at hstep
  · cases hstep
  · rename_i hc hl
    set t := s.tracks.getD j dummyTrack with htdef
    have htget : t = s.tracks.get ⟨j, hj⟩ := List.getD_eq_get s.tracks dummyTrack hj
    have htmem : t ∈ s.tracks := by
      rw [htget]
      exact List.get_mem _ _ _
    have hhc : hc = t.measurements.length := by
      have h2 := hinv.hit_eq t htmem
      rw [hl] at h2
      exact Option.some.inj h2
    cases hstep
    constructor
    · exact hinv.pool_occ
    · show ((s.tracks.set j _).map Track.id).Nodup
      rw [map_set_comm]
      rw [list_set_self _ j _ (by simpa using hj)
        (by rw [List.get_map]; rw [← htget])]
      exact hinv.ids_nodup
    · intro x hx
      rcases mem_set_char _ _ _ _ hx with hx1 | ⟨i, hi, -, hix⟩
      · subst hx1
        exact hinv.ids_le t htmem
      · exact hinv.ids_le x (hix ▸ List.get_mem _ _ _)
    · intro x hx
      rcases mem_set_char _ _ _ _ hx with hx1 | ⟨i, hi, -, hix⟩
      · subst hx1
        simp
      · exact hinv.meas_ne x (hix ▸ List.get_mem _ _ _)
    · intro x hx
      rcases mem_set_char _ _ _ _ hx with hx1 | ⟨i, hi, hij, hix⟩
      · subst hx1
        show dlookup (dset s.hit_counts t.id (hc + 1)) t.id =
          some (t.measurements ++ [m]).length
        rw [dlookup_dset_self]
        simp [hhc]
      · have hxid : x.id ≠ t.id := by
          rw [← hix, htget]
          exact ids_ne_of_nodup Track.id s.tracks hinv.ids_nodup i j hi hj hij
        show dlookup (dset s.hit_counts t.id (hc + 1)) x.id =
          some x.measurements.length
        rw [dlookup_dset_ne _ _ _ _ hxid]
        exact hinv.hit_eq x (hix ▸ List.get_mem _ _ _)
    · intro x hx
      rcases mem_set_char _ _ _ _ hx with hx1 | ⟨i, hi, hij, hix⟩
      · subst hx1
        show (if ft ≤ hc + 1 then "Firm"
              else if hc + 1 < prog.length then prog.getD (hc + 1 - 1) "" else t.state)
          = ladder_state ft prog (t.measurements ++ [m]).length
        simp only [List.length_append, List.length_cons, List.length_nil]
        rw [hinv.state_eq t htmem, ← hhc]
        exact ladder_state_hit ft prog hc
      · exact hinv.state_eq x (hix ▸ List.get_mem _ _ _)
    · intro p hp
      rcases mem_dset _ _ _ _ hp with hp1 | hp2
      · rw [hp1]
      · exact hinv.miss_zero p hp2

theorem create_track_inv {M : Type} (ft : Nat) (prog : List String)
    (s s1 : S M) (m : M) (hft : 2 ≤ ft)
    (hinv : Inv ft prog s) (hstep : create_track prog s m = some s1) :
    Inv ft prog s1 := by
  simp only [create_track] at hstep
  split at hstep
  · cases hstep
  · rename_i st0 hh
    have halloc : get_next_track_id s.track_id_list =
        ((s.track_id_list.length + 1, s.track_id_list.length),
          s.track_id_list ++ [⟨s.track_id_list.length + 1, SlotStatus.occupied⟩]) := by
      unfold get_next_track_id
      rw [get_next_aux_all_occupied s.track_id_list hinv.pool_occ 0]
    simp only [halloc] at hstep
    cases hstep
    have hst0 : st0 = prog.getD 0 "" := by
      cases hp : prog with
      | nil => rw [hp] at hh; cases hh
      | cons a l =>
        rw [hp] at hh
        simp only [List.head?_cons, Option.some.injEq] at hh
        simp [hp, ← hh]
    have hnid : ∀ x ∈ s.tracks, x.id ≠ s.track_id_list.length + 1 := by
      intro x hx heq
      have := (hinv.ids_le x hx).2
      omega
    constructor
    · intro sl hsl
      rcases List.mem_append.1 hsl with hsl | hsl
      · exact hinv.pool_occ sl hsl
      · simp at hsl
        rw [hsl]
    · simp only [List.map_append, List.map_cons, List.map_nil]
      rw [List.nodup_append]
      refine ⟨hinv.ids_nodup, List.nodup_singleton _, ?_⟩
      intro a ha hb
      simp only [List.mem_singleton] at hb
      obtain ⟨x, hx, hxa⟩ := List.mem_map.1 ha
      exact hnid x hx (by rw [hxa, hb])
    · intro x hx
      rcases List.mem_append.1 hx with hx | hx
      · have := hinv.ids_le x hx
        constructor
        · exact this.1
        · simp only [List.length_append, List.length_cons, List.length_nil]
          omega
      · simp only [List.mem_singleton] at hx
        rw [hx]
        simp only [List.length_append, List.length_cons, List.length_nil]
        omega
    · intro x hx
      rcases List.mem_append.1 hx with hx | hx
      · exact hinv.meas_ne x hx
      · simp only [List.mem_singleton] at hx
        rw [hx]
        simp
    · intro x hx
      rcases List.mem_append.1 hx with hx | hx
      · rw [dlookup_dset_ne _ _ _ _ (hnid x hx)]
        exact hinv.hit_eq x hx
      · simp only [List.mem_singleton] at hx
        rw [hx]
        rw [dlookup_dset_self]
        rfl
    · intro x hx
      rcases List.mem_append.1 hx with hx | hx
      · exact hinv.state_eq x hx
      · simp only [List.mem_singleton] at hx
        rw [hx]
        simp only [List.length_cons, List.length_nil]
        rw [hst0, ladder_state_one ft prog hft]
    · intro p hp
      rcases mem_dset _ _ _ _ hp with hp1 | hp2
      · rw [hp1]
      · exact hinv.miss_zero p hp2

theorem step_inv {M : Type} [DecidableEq M] (gate : M → M → Bool) (ft : Nat)
    (prog : List String) (hft : 2 ≤ ft) (s s2 : S M) (m : M)
    (hinv : Inv ft prog s) (hstep : step gate ft prog s m = some s2) :
    Inv ft prog s2 := by
  unfold step at hstep
  split at hstep
  · cases hstep
  · rename_i j hfg
    split at hstep
    · cases hstep
    · rename_i s1 hhu
      have hinv1 : Inv ft prog s1 :=
        hit_update_inv ft prog s s1 m j (find_gating_lt gate m s.tracks j hfg) hinv hhu
      rw [evict_pass_assigned_true ft s1.tracks.length 0 s1.tracks
        s1.track_id_list s1.miss_counts] at hstep
      simp only [Option.map_some'] at hstep
      have hs2 : s2 = s1 := by
        cases hstep
        cases s1
        rfl
      rw [hs2]
      exact hinv1
  · rename_i hfg
    split at hstep
    · cases hstep
    · rename_i s1 hcr
      have hinv1 : Inv ft prog s1 := create_track_inv ft prog s s1 m hft hinv hcr
      rw [evict_pass_miss_zero ft false s1.miss_counts hinv1.miss_zero
        s1.tracks.length 0 s1.tracks s1.track_id_list] at hstep
      simp only [Option.map_some'] at hstep
      have hs2 : s2 = s1 := by
        cases hstep
        cases s1
        rfl
      rw [hs2]
      exact hinv1

theorem initState_inv {M : Type} (ft : Nat) (prog : List String) :
    Inv ft prog (initState : S M) := by
  refine ⟨?_, ?_, ?_, ?_, ?_, ?_, ?_⟩ <;> simp [initState]

theorem state_progression_ft (ft : Nat) (prog : List String)
    (h : state_progression ft = some prog) : 2 ≤ ft := by
  unfold state_progression at h
  by_cases h3 : ft = 3
  · omega
  · rw [if_neg h3] at h
    by_cases h5 : ft = 5
    · omega
    · rw [if_neg h5] at h
      by_cases h7 : ft = 7
      · omega
      · rw [if_neg h7] at h
        cases h

theorem foldSteps_pres {σ α : Type} (P : σ → Prop) (f : σ → α → Option σ)
    (hf : ∀ s a s2, P s → f s a = some s2 → P s2) :
    ∀ (ms : List α) (s s2 : σ), P s → foldSteps f s ms = some s2 → P s2 := by
  intro ms
  induction ms with
  | nil =>
    intro s s2 hP h
    unfold foldSteps at h
    cases h
    exact hP
  | cons a rest ih =>
    intro s s2 hP h
    unfold foldSteps at h
    cases hfa : f s a with
    | none => rw [hfa] at h; cases h
    | some s1 =>
      rw [hfa] at h
      exact ih s1 s2 (hf s a s1 hP hfa) h

theorem initialize_tracks_inv {M : Type} [DecidableEq M] (gate : M → M → Bool)
    (ft : Nat) (prog : List String) (ms : List M) (s : S M)
    (hprog : state_progression ft = some prog)
    (hrun : initialize_tracks gate ft ms = some s) : Inv ft prog s := by
  unfold initialize_tracks at hrun
  rw [hprog] at hrun
  exact foldSteps_pres (Inv ft prog) (step gate ft prog)
    (fun s0 a s2 hP h =>
      step_inv gate ft prog (state_progression_ft ft prog hprog) s0 s2 a hP h)
    ms initState s (initState_inv ft prog) hrun

end T1

/-- C10: in the test1.py variant, every active track of every completed run
has its recorded hit count equal to the length of its measurement history
(creation sets both to 1, every accepted hit appends one measurement and
bumps the count by one, and nothing else touches either). -/
theorem C10_hit_count_eq_history_length {M : Type} [inst : DecidableEq M]
    (gate : M → M → Bool) (ft : Nat) (ms : List M) (s : T1.S M)
    (hrun : T1.initialize_tracks gate ft ms = some s)
    (t : T1.Track M) (ht : t ∈ s.tracks) :
    dlookup s.hit_counts t.id = some t.measurements.length := by
  cases hprog : T1.state_progression ft with
  | none =>
    unfold T1.initialize_tracks at hrun
    rw [hprog] at hrun
    cases hrun
  | some prog =>
    exact (T1.initialize_tracks_inv gate ft prog ms s hprog hrun).hit_eq t ht

/-- Witness for C10: a ThreeState run with two accepted hits; the track's
hit count is 2 and its history holds the two measurements. -/
theorem C10_hit_count_eq_history_length_witness :
    dlookup [(1, 2)] 1 =
      some (⟨1, "Tentative", [0, 1]⟩ : T1.Track Nat).measurements.length :=
  C10_hit_count_eq_history_length (fun (_ _ : Nat) => true) 3 [0, 1]
    ⟨[⟨1, "Tentative", [0, 1]⟩], [⟨1, SlotStatus.occupied⟩], [(1, 0)], [(1, 2)], []⟩
    (by decide) ⟨1, "Tentative", [0, 1]⟩ (by decide)

/-- Runs of test4_2.py have a fixed shape: the first measurement always
creates a track that the same cycle's eviction pass immediately releases
(leaving the state below), and processing any second measurement fails
(the eviction pass reads `state_map.get(1)`, which is `None`, and
`None.startswith` raises). -/
theorem t42_run_shape {M : Type} (gate : M → M → Bool) (ft : Nat)
    (prog : List String)
    (hs1 : ∀ m : M, T42.step gate ft prog T42.initState m =
      some ⟨[none], [⟨1, SlotStatus.free⟩], [(0, 1)], [(0, 1)], [0], [], []⟩)
    (hs2 : ∀ m : M, T42.step gate ft prog
      ⟨[none], [⟨1, SlotStatus.free⟩], [(0, 1)], [(0, 1)], [0], [], []⟩ m = none) :
    ∀ (ms : List M) (s : T42.S M),
      foldSteps (T42.step gate ft prog) T42.initState ms = some s →
      ∀ ot ∈ s.tracks, ot = none := by
  intro ms s hrun
  cases ms with
  | nil =>
    unfold foldSteps at hrun
    cases hrun
    intro ot hot
    cases hot
  | cons m1 rest =>
    unfold foldSteps at hrun
    simp only [hs1 m1] at hrun
    cases rest with
    | nil =>
      unfold foldSteps at hrun
      cases hrun
      intro ot hot
      simp only [List.mem_singleton] at hot
      exact hot
    | cons m2 rest2 =>
      unfold foldSteps at hrun
      simp only [hs2 m2] at hrun
      cases hrun

/-- In the test4_2.py variant every run that completes leaves only
released (`None`) entries in the track list. -/
theorem t42_no_live_tracks {M : Type} (gate : M → M → Bool) (ft : Nat)
    (ms : List M) (s : T42.S M)
    (hrun : T42.initialize_tracks gate ft ms = some s) :
    ∀ ot ∈ s.tracks, ot = none := by
  unfold T42.initialize_tracks at hrun
  by_cases h3 : ft = 3
  · subst h3
    exact t42_run_shape gate 3 ["Poss1", "Tentative1", "Firm"]
      (fun m => rfl) (fun m => rfl) ms s hrun
  · by_cases h5 : ft = 5
    · subst h5
      exact t42_run_shape gate 5
        ["Poss1", "Poss2", "Tentative1", "Tentative2", "Firm"]
        (fun m => rfl) (fun m => rfl) ms s hrun
    · by_cases h7 : ft = 7
      · subst h7
        exact t42_run_shape gate 7
          ["Poss1", "Poss2", "Tentative1", "Tentative2", "Tentative3", "Firm"]
          (fun m => rfl) (fun m => rfl) ms s hrun
      · have hnone : T42.state_progression ft = none := by
          unfold T42.state_progression
          rw [if_neg h3, if_neg h5, if_neg h7]
        simp only [hnone] at hrun
        cases hrun

/-- C3 (amended): for every active track at every point during processing,
the state label equals `progression[min(hitCount, len(progression) - 1) - 1]`
unless `hitCount ≥ N`, in which case it is `Firm`.  For ThreeState and
FiveState modes (`len(progression) = N`) this coincides with the claimed
`progression[min(hitCount, len(progression)) - 1]`; they differ only in
SevenState mode at `hitCount = 6` (see the counterexample).  First
conjunct: the invariant over all runs of the test1.py variant.  Second
conjunct: in the test4_2.py variant every completed run leaves only
released (`None`) entries in the track list, so the invariant holds there
vacuously. -/
theorem C3_state_ladder_formula :
    (∀ (M : Type) [inst : DecidableEq M] (gate : M → M → Bool) (ft : Nat)
       (prog : List String) (ms : List M) (s : T1.S M),
       T1.state_progression ft = some prog →
       T1.initialize_tracks gate ft ms = some s →
       ∀ t ∈ s.tracks, ∃ h : Nat, dlookup s.hit_counts t.id = some h ∧
         t.state =
           (if ft ≤ h then "Firm" else prog.getD (min h (prog.length - 1) - 1) ""))
    ∧ (∀ (M : Type) (gate : M → M → Bool) (ft : Nat) (ms : List M)
        (s : T42.S M),
        T42.initialize_tracks gate ft ms = some s →
        ∀ ot ∈ s.tracks, ot = none) := by
  constructor
  · intro M inst gate ft prog ms s hprog hrun t ht
    have hinv := T1.initialize_tracks_inv gate ft prog ms s hprog hrun
    refine ⟨t.measurements.length, hinv.hit_eq t ht, ?_⟩
    rw [hinv.state_eq t ht]
    rfl
  · intro M gate ft ms s hrun
    exact t42_no_live_tracks gate ft ms s hrun

/-- Witness for C3: the first conjunct at the SevenState run with six
accepted hits (the track sits at `Tentative` with hit count 6); the second
conjunct at a one-measurement test4_2 run, whose sole track entry is
`None`. -/
theorem C3_state_ladder_formula_witness :
    (∃ h : Nat, dlookup [(1, 6)] 1 = some h ∧
      (⟨1, "Tentative", [0, 1, 2, 3, 4, 5]⟩ : T1.Track Nat).state =
        (if 7 ≤ h then "Firm"
         else (["Pos", "Pos", "Tentative", "Tentative", "Tentative", "Firm"] :
            List String).getD
           (min h ((["Pos", "Pos", "Tentative", "Tentative", "Tentative", "Firm"] :
              List String).length - 1) - 1) ""))
    ∧ (none : Option (T42.Track Nat)) = none := by
  constructor
  · exact C3_state_ladder_formula.1 Nat (fun (_ _ : Nat) => true) 7
      ["Pos", "Pos", "Tentative", "Tentative", "Tentative", "Firm"] [0, 1, 2, 3, 4, 5]
      ⟨[⟨1, "Tentative", [0, 1, 2, 3, 4, 5]⟩], [⟨1, SlotStatus.occupied⟩],
        [(1, 0)], [(1, 6)], []⟩
      (by decide) (by decide) ⟨1, "Tentative", [0, 1, 2, 3, 4, 5]⟩ (by decide)
  · exact C3_state_ladder_formula.2 Nat (fun (_ _ : Nat) => false) 3 [0]
      ⟨[none], [⟨1, SlotStatus.free⟩], [(0, 1)], [(0, 1)], [0], [], []⟩
      (by decide) none (by decide)

/-- C3 counterexample: in SevenState mode, after six accepted hits the track
has hit count 6 (below `N = 7`, so the claim's exception does not apply) and
state `Tentative`, while the claimed formula
`progression[min(hitCount, len(progression)) - 1]` gives
`progression[5] = Firm`. -/
theorem C3_state_ladder_counterexample :
    (T1.initialize_tracks (fun (_ _ : Nat) => true) 7 [0, 1, 2, 3, 4, 5]).map
        (fun s => (s.tracks.map T1.Track.state, dlookup s.hit_counts 1)) =
      some (["Tentative"], some 6)
    ∧ "Tentative" ≠
        (["Pos", "Pos", "Tentative", "Tentative", "Tentative", "Firm"] :
          List String).getD (min 6 6 - 1) "" := by
  exact ⟨by decide, by decide⟩

/-- C7: evaluating both variants on the claim's scenario.  In test1.py a
`Pos` track that goes one full processed cycle without a match is NOT
evicted (both tracks remain active); in test4_2.py the newly created track
is evicted in the very cycle that created it (its slot in the track list is
already `None` after one measurement). -/
theorem C7_pos_track_eviction_eval :
    (T1.initialize_tracks (fun (_ _ : Nat) => false) 3 [0, 1]).map
        (fun s => s.tracks.map T1.Track.id) = some [1, 2]
    ∧ (T42.initialize_tracks (fun (_ _ : Nat) => false) 3 [0]).map
        (fun s => s.tracks) = some [none] := by
  exact ⟨by decide, by decide⟩

section RealGate

/-- A measurement tuple `(azimuth, elevation, range, doppler, timestamp)`
as consumed by both source files (indices 0-4 of the Python tuple). -/
structure Meas : Type where
  az : ℝ
  el : ℝ
  r : ℝ
  doppler : ℝ
  timestamp : ℝ

/-- `np.radians` (both source files, lines 9-10). -/
noncomputable def radians (d : ℝ) : ℝ := d * (Real.pi / 180)

/-- `sph2cart(az, el, r)` (both source files, lines 8-14). -/
noncomputable def sph2cart (az el r : ℝ) : ℝ × ℝ × ℝ :=
  (r * Real.cos (radians el) * Real.cos (radians az),
   r * Real.cos (radians el) * Real.sin (radians az),
   r * Real.sin (radians el))

/-- `doppler_correlation` (both source files, lines 17-18): strict. -/
def doppler_correlation (doppler_1 doppler_2 doppler_threshold : ℝ) : Prop :=
  |doppler_1 - doppler_2| < doppler_threshold

/-- `range_gate` (both source files, lines 21-22): strict. -/
def range_gate (distance range_threshold : ℝ) : Prop :=
  distance < range_threshold

/-- `np.linalg.norm(np.array(p) - np.array(q))` for 3-vectors (test1.py
line 68, test4_2.py line 82). -/
noncomputable def norm3 (p q : ℝ × ℝ × ℝ) : ℝ :=
  Real.sqrt ((p.1 - q.1) ^ 2 + (p.2.1 - q.2.1) ^ 2 + (p.2.2 - q.2.2) ^ 2)

/-- The inline gating decision of the association loop (test1.py lines
63-73, test4_2.py lines 77-87): Doppler gate AND range gate AND
`time_diff <= time_threshold`. -/
noncomputable def gateProp (cand last : Meas)
    (doppler_threshold range_threshold time_threshold : ℝ) : Prop :=
  doppler_correlation cand.doppler last.doppler doppler_threshold
  ∧ range_gate
      (norm3 (sph2cart cand.az cand.el cand.r) (sph2cart last.az last.el last.r))
      range_threshold
  ∧ cand.timestamp - last.timestamp ≤ time_threshold

/-- A triple of reals as a point of the Euclidean (L2) 3-space. -/
noncomputable def vec3 (p : ℝ × ℝ × ℝ) : EuclideanSpace ℝ (Fin 3) :=
  ![p.1, p.2.1, p.2.2]

/-- The Cartesian position of a measurement as a Euclidean 3-vector. -/
noncomputable def cartVec (m : Meas) : EuclideanSpace ℝ (Fin 3) :=
  vec3 (sph2cart m.az m.el m.r)

theorem norm3_eq_dist (p q : ℝ × ℝ × ℝ) :
    norm3 p q = dist (vec3 p) (vec3 q) := by
  rw [EuclideanSpace.dist_eq (vec3 p) (vec3 q), Fin.sum_univ_three]
  unfold vec3
  simp only [Matrix.cons_val_zero, Matrix.cons_val_one, Matrix.head_cons,
    Matrix.cons_val_two, Matrix.tail_cons, Real.dist_eq, sq_abs]
  rfl

/-- C5: the gate holds iff all three conditions hold: strict Doppler gate,
strict range gate on the Euclidean distance between the Cartesian
positions, and non-strict time gate (so negative time deltas at or below
the threshold pass). -/
theorem C5_gate_iff_three_conditions (cand last : Meas)
    (doppler_threshold range_threshold time_threshold : ℝ) :
    gateProp cand last doppler_threshold range_threshold time_threshold ↔
      (|cand.doppler - last.doppler| < doppler_threshold
        ∧ dist (cartVec cand) (cartVec last) < range_threshold
        ∧ cand.timestamp - last.timestamp ≤ time_threshold) := by
  unfold gateProp doppler_correlation range_gate cartVec
  rw [norm3_eq_dist]

end RealGate

section FirstMatch

theorem find_gating_first {M : Type} (gate : M → M → Bool) (m : M) :
    ∀ (pre : List (T1.Track M)) (t : T1.Track M) (post : List (T1.Track M))
      (last : M),
      (∀ t2 ∈ pre, ∃ l2, t2.measurements.getLast? = some l2 ∧ gate m l2 = false) →
      t.measurements.getLast? = some last → gate m last = true →
      T1.find_gating gate m (pre ++ t :: post) = some (some pre.length) := by
  intro pre
  induction pre with
  | nil =>
    intro t post last _ hlast hg
    simp [T1.find_gating, hlast, hg]
  | cons p rest ih =>
    intro t post last hpre hlast hg
    obtain ⟨l2, hl2, hg2⟩ := hpre p (List.mem_cons_self _ _)
    have ihh := ih t post last (fun x hx => hpre x (List.mem_cons_of_mem _ hx)) hlast hg
    simp [T1.find_gating, hl2, hg2, ihh]

theorem hit_update_middle {M : Type} (ft : Nat) (prog : List String)
    (s : T1.S M) (m : M) (pre post : List (T1.Track M)) (t : T1.Track M)
    (hc : Nat) (htr : s.tracks = pre ++ t :: post)
    (hl : dlookup s.hit_counts t.id = some hc) :
    T1.hit_update ft prog s m pre.length =
      some ⟨pre ++
          (⟨t.id,
            (if ft ≤ hc + 1 then "Firm"
             else if hc + 1 < prog.length then prog.getD (hc + 1 - 1) "" else t.state),
            t.measurements ++ [m]⟩ : T1.Track M) :: post,
        s.track_id_list, dset s.miss_counts t.id 0, dset s.hit_counts t.id (hc + 1),
        if ft ≤ hc + 1 then sinsert s.firm_ids t.id else s.firm_ids⟩ := by
  simp only [T1.hit_update, htr, getD_append_middle, hl]
  rw [list_set_append_middle]

theorem step_hit_middle {M : Type} [inst : DecidableEq M] (gate : M → M → Bool)
    (ft : Nat) (prog : List String) (s : T1.S M) (m : M)
    (pre post : List (T1.Track M)) (t : T1.Track M) (hc : Nat) (last : M)
    (htr : s.tracks = pre ++ t :: post)
    (hpre : ∀ t2 ∈ pre, ∃ l2, t2.measurements.getLast? = some l2 ∧ gate m l2 = false)
    (hlast : t.measurements.getLast? = some last) (hg : gate m last = true)
    (hl : dlookup s.hit_counts t.id = some hc) :
    T1.step gate ft prog s m =
      some ⟨pre ++
          (⟨t.id,
            (if ft ≤ hc + 1 then "Firm"
             else if hc + 1 < prog.length then prog.getD (hc + 1 - 1) "" else t.state),
            t.measurements ++ [m]⟩ : T1.Track M) :: post,
        s.track_id_list, dset s.miss_counts t.id 0, dset s.hit_counts t.id (hc + 1),
        if ft ≤ hc + 1 then sinsert s.firm_ids t.id else s.firm_ids⟩ := by
  have hfg : T1.find_gating gate m s.tracks = some (some pre.length) := by
    rw [htr]
    exact find_gating_first gate m pre t post last hpre hlast hg
  have hhu := hit_update_middle ft prog s m pre post t hc htr hl
  simp only [T1.step, hfg, hhu]
  rw [evict_pass_assigned_true]
  rfl

theorem assoc_scan_skip {M : Type} (gate : M → M → Bool) (ft : Nat)
    (prog : List String) (m : M) (s : T42.S M) :
    ∀ (pre rest : List (Option (T42.Track M))) (j0 : Nat),
      (∀ ot ∈ pre, ∀ tr2 : T42.Track M, ot = some tr2 →
        ∃ p, tr2.measurements.getLast? = some p ∧ gate m p.1 = false) →
      T42.assoc_scan gate ft prog m s (pre ++ rest) j0 =
        T42.assoc_scan gate ft prog m s rest (j0 + pre.length) := by
  intro pre
  induction pre with
  | nil => intro rest j0 _; simp
  | cons ot pre2 ih =>
    intro rest j0 hskip
    have harith : j0 + (ot :: pre2).length = (j0 + 1) + pre2.length := by
      simp [List.length_cons]
      omega
    rw [harith]
    cases ot with
    | none =>
      rw [List.cons_append, T42.assoc_scan]
      exact ih rest (j0 + 1) (fun x hx => hskip x (List.mem_cons_of_mem _ hx))
    | some tr2 =>
      obtain ⟨p, hp, hgp⟩ := hskip (some tr2) (List.mem_cons_self _ _) tr2 rfl
      rw [List.cons_append, T42.assoc_scan]
      simp only [hp, hgp, Bool.false_eq_true, if_false]
      exact ih rest (j0 + 1) (fun x hx => hskip x (List.mem_cons_of_mem _ hx))

/-- The test4_2.py association update on a matched index already in
`firm_ids` (line 89 guard): no counter, state or pool change, the pair
`(measurement, state_map[j])` is appended to the track's history. -/
theorem assoc_scan_hit_firm {M : Type} (gate : M → M → Bool) (ft : Nat)
    (prog : List String) (m : M) (s : T42.S M) (tr : T42.Track M)
    (post : List (Option (T42.Track M))) (j : Nat) (lastp : M × String)
    (stv : String)
    (hlast : tr.measurements.getLast? = some lastp) (hg : gate m lastp.1 = true)
    (hf : j ∈ s.firm_ids) (hstv : dlookup s.state_map j = some stv) :
    T42.assoc_scan gate ft prog m s (some tr :: post) j =
      some ({ s with
        tracks := s.tracks.set j
          (some ⟨tr.track_id, tr.measurements ++ [(m, stv)]⟩) }, true) := by
  rw [T42.assoc_scan]
  simp only [hlast, hg, if_true, if_pos hf, hstv]

/-- The test4_2.py association update on a matched index in
`tentative_ids` (lines 90-99): hit count + 1, miss count 0, state map
updated by the ladder rule, and the appended state is whatever the updated
state map holds at the index — including the SevenState sixth-hit step
where the map keeps its old label because neither ladder branch fires. -/
theorem assoc_scan_hit_tentative {M : Type} (gate : M → M → Bool) (ft : Nat)
    (prog : List String) (m : M) (s : T42.S M) (tr : T42.Track M)
    (post : List (Option (T42.Track M))) (j hc : Nat) (lastp : M × String)
    (stv : String)
    (hlast : tr.measurements.getLast? = some lastp) (hg : gate m lastp.1 = true)
    (hnf : j ∉ s.firm_ids) (hten : j ∈ s.tentative_ids)
    (hhc : dlookup s.hit_counts j = some hc)
    (hstv : dlookup
      (if ft ≤ hc + 1 then
        dset (if hc + 1 < prog.length then
            dset s.state_map j (prog.getD (hc + 1 - 1) "") else s.state_map) j "Firm"
       else (if hc + 1 < prog.length then
            dset s.state_map j (prog.getD (hc + 1 - 1) "") else s.state_map)) j =
      some stv) :
    T42.assoc_scan gate ft prog m s (some tr :: post) j =
      some ({ s with
        tracks := s.tracks.set j (some ⟨tr.track_id, tr.measurements ++ [(m, stv)]⟩),
        hit_counts := dset s.hit_counts j (hc + 1),
        miss_counts := dset s.miss_counts j 0,
        firm_ids := if ft ≤ hc + 1 then sinsert s.firm_ids j else s.firm_ids,
        state_map :=
          if ft ≤ hc + 1 then
            dset (if hc + 1 < prog.length then
                dset s.state_map j (prog.getD (hc + 1 - 1) "") else s.state_map) j "Firm"
          else (if hc + 1 < prog.length then
              dset s.state_map j (prog.getD (hc + 1 - 1) "") else s.state_map) },
        true) := by
  rw [T42.assoc_scan]
  simp only [hlast, hg, if_true, if_neg hnf, if_pos hten, hhc]
  by_cases hfirm : ft ≤ hc + 1
  · simp only [if_pos hfirm] at hstv ⊢
    simp only [hstv]
  · simp only [if_neg hfirm] at hstv ⊢
    simp only [hstv]

/-- The test4_2.py association update on a matched index that is in
neither `firm_ids` nor `tentative_ids` (lines 100-104): the counters are
re-initialized (hit count 1, miss count 0), the index joins
`tentative_ids`, and the state map and appended state are the first ladder
entry. -/
theorem assoc_scan_hit_fresh {M : Type} (gate : M → M → Bool) (ft : Nat)
    (prog : List String) (m : M) (s : T42.S M) (tr : T42.Track M)
    (post : List (Option (T42.Track M))) (j : Nat) (lastp : M × String)
    (st0 : String)
    (hlast : tr.measurements.getLast? = some lastp) (hg : gate m lastp.1 = true)
    (hnf : j ∉ s.firm_ids) (hnten : j ∉ s.tentative_ids)
    (hhead : prog.head? = some st0) :
    T42.assoc_scan gate ft prog m s (some tr :: post) j =
      some ({ s with
        tracks := s.tracks.set j (some ⟨tr.track_id, tr.measurements ++ [(m, st0)]⟩),
        tentative_ids := sinsert s.tentative_ids j,
        hit_counts := dset s.hit_counts j 1,
        miss_counts := dset s.miss_counts j 0,
        state_map := dset s.state_map j st0 }, true) := by
  rw [T42.assoc_scan]
  simp only [hlast, hg, if_true, if_neg hnf, if_neg hnten, hhead, dlookup_dset_self]

end FirstMatch

/-- Modelled from the spec: the state component of the §4.4 hit update,
`state = progression[hitCount - 1]` while `hitCount < N`, else `Firm`.
Used only to compare the code's hit update against the claim's reference
to §4.4. -/
def spec_hit_state (prog : List String) (bigN hitCount : Nat) : String :=
  if hitCount < bigN then prog.getD (hitCount - 1) "" else "Firm"

/-- C4 (amended): in both variants the measurement goes to the first track
(in creation order, skipping released `None` entries in test4_2) whose last
history entry gates; no later track is considered (first-match, not
best-match), so when several tracks would gate the earliest-created one
wins, and nothing outside the listed record fields changes.  First
conjunct: the full test1.py step (hit update, bare measurement appended,
new state in the track's `state` field, eviction pass a no-op on assigned
cycles).  Remaining conjuncts: the test4_2.py association update in each
of its three branches — matched index in `firm_ids` (history append only,
no counter update), in `tentative_ids` (hit update, pair appended with the
state read back from the updated state map, covering the SevenState
sixth-hit step where the map keeps its old label), and in neither
(counters re-initialized to hit count 1). -/
theorem C4_first_match_assignment :
    (∀ (M : Type) [inst : DecidableEq M] (gate : M → M → Bool) (ft : Nat)
       (prog : List String) (s : T1.S M) (m : M)
       (pre post : List (T1.Track M)) (t : T1.Track M) (hc : Nat) (last : M),
       s.tracks = pre ++ t :: post →
       (∀ t2 ∈ pre, ∃ l2, t2.measurements.getLast? = some l2 ∧ gate m l2 = false) →
       t.measurements.getLast? = some last →
       gate m last = true →
       dlookup s.hit_counts t.id = some hc →
       T1.step gate ft prog s m =
         some ⟨pre ++
             (⟨t.id,
               (if ft ≤ hc + 1 then "Firm"
                else if hc + 1 < prog.length then prog.getD (hc + 1 - 1) "" else t.state),
               t.measurements ++ [m]⟩ : T1.Track M) :: post,
           s.track_id_list, dset s.miss_counts t.id 0, dset s.hit_counts t.id (hc + 1),
           if ft ≤ hc + 1 then sinsert s.firm_ids t.id else s.firm_ids⟩)
    ∧ (∀ (M : Type) (gate : M → M → Bool) (ft : Nat) (prog : List String)
        (s : T42.S M) (m : M) (pre post : List (Option (T42.Track M)))
        (tr : T42.Track M) (lastp : M × String) (stv : String),
        s.tracks = pre ++ some tr :: post →
        (∀ ot ∈ pre, ∀ tr2 : T42.Track M, ot = some tr2 →
          ∃ p, tr2.measurements.getLast? = some p ∧ gate m p.1 = false) →
        tr.measurements.getLast? = some lastp →
        gate m lastp.1 = true →
        pre.length ∈ s.firm_ids →
        dlookup s.state_map pre.length = some stv →
        T42.assoc_scan gate ft prog m s s.tracks 0 =
          some ({ s with
            tracks := pre ++
              some (⟨tr.track_id, tr.measurements ++ [(m, stv)]⟩ : T42.Track M) ::
                post }, true))
    ∧ (∀ (M : Type) (gate : M → M → Bool) (ft : Nat) (prog : List String)
        (s : T42.S M) (m : M) (pre post : List (Option (T42.Track M)))
        (tr : T42.Track M) (hc : Nat) (lastp : M × String) (stv : String),
        s.tracks = pre ++ some tr :: post →
        (∀ ot ∈ pre, ∀ tr2 : T42.Track M, ot = some tr2 →
          ∃ p, tr2.measurements.getLast? = some p ∧ gate m p.1 = false) →
        tr.measurements.getLast? = some lastp →
        gate m lastp.1 = true →
        pre.length ∉ s.firm_ids →
        pre.length ∈ s.tentative_ids →
        dlookup s.hit_counts pre.length = some hc →
        dlookup
          (if ft ≤ hc + 1 then
            dset (if hc + 1 < prog.length then
                dset s.state_map pre.length (prog.getD (hc + 1 - 1) "")
              else s.state_map) pre.length "Firm"
           else (if hc + 1 < prog.length then
                dset s.state_map pre.length (prog.getD (hc + 1 - 1) "")
              else s.state_map)) pre.length = some stv →
        T42.assoc_scan gate ft prog m s s.tracks 0 =
          some ({ s with
            tracks := pre ++
              some (⟨tr.track_id, tr.measurements ++ [(m, stv)]⟩ : T42.Track M) ::
                post,
            hit_counts := dset s.hit_counts pre.length (hc + 1),
            miss_counts := dset s.miss_counts pre.length 0,
            firm_ids :=
              if ft ≤ hc + 1 then sinsert s.firm_ids pre.length else s.firm_ids,
            state_map :=
              if ft ≤ hc + 1 then
                dset (if hc + 1 < prog.length then
                    dset s.state_map pre.length (prog.getD (hc + 1 - 1) "")
                  else s.state_map) pre.length "Firm"
              else (if hc + 1 < prog.length then
                  dset s.state_map pre.length (prog.getD (hc + 1 - 1) "")
                else s.state_map) }, true))
    ∧ (∀ (M : Type) (gate : M → M → Bool) (ft : Nat) (prog : List String)
        (s : T42.S M) (m : M) (pre post : List (Option (T42.Track M)))
        (tr : T42.Track M) (lastp : M × String) (st0 : String),
        s.tracks = pre ++ some tr :: post →
        (∀ ot ∈ pre, ∀ tr2 : T42.Track M, ot = some tr2 →
          ∃ p, tr2.measurements.getLast? = some p ∧ gate m p.1 = false) →
        tr.measurements.getLast? = some lastp →
        gate m lastp.1 = true →
        pre.length ∉ s.firm_ids →
        pre.length ∉ s.tentative_ids →
        prog.head? = some st0 →
        T42.assoc_scan gate ft prog m s s.tracks 0 =
          some ({ s with
            tracks := pre ++
              some (⟨tr.track_id, tr.measurements ++ [(m, st0)]⟩ : T42.Track M) ::
                post,
            tentative_ids := sinsert s.tentative_ids pre.length,
            hit_counts := dset s.hit_counts pre.length 1,
            miss_counts := dset s.miss_counts pre.length 0,
            state_map := dset s.state_map pre.length st0 }, true)) := by
  refine ⟨?_, ?_, ?_, ?_⟩
  · intro M inst gate ft prog s m pre post t hc last htr hpre hlast hg hl
    exact step_hit_middle gate ft prog s m pre post t hc last htr hpre hlast hg hl
  · intro M gate ft prog s m pre post tr lastp stv htr hpre hlast hg hf hstv
    rw [htr, assoc_scan_skip gate ft prog m s pre (some tr :: post) 0 hpre,
      Nat.zero_add,
      assoc_scan_hit_firm gate ft prog m s tr post pre.length lastp stv hlast hg
        hf hstv,
      htr, list_set_append_middle]
  · intro M gate ft prog s m pre post tr hc lastp stv htr hpre hlast hg hnf hten
      hhc hstv
    rw [htr, assoc_scan_skip gate ft prog m s pre (some tr :: post) 0 hpre,
      Nat.zero_add,
      assoc_scan_hit_tentative gate ft prog m s tr post pre.length hc lastp stv
        hlast hg hnf hten hhc hstv,
      htr, list_set_append_middle]
  · intro M gate ft prog s m pre post tr lastp st0 htr hpre hlast hg hnf hnten
      hhead
    rw [htr, assoc_scan_skip gate ft prog m s pre (some tr :: post) 0 hpre,
      Nat.zero_add,
      assoc_scan_hit_fresh gate ft prog m s tr post pre.length lastp st0 hlast
        hg hnf hnten hhead,
      htr, list_set_append_middle]

/-- Witness for C4 at concrete states exercising every conjunct: in both
variants the first track does not gate and the second does; the three
test4_2 cases are taken at a firm index, a tentative index, and a fresh
index respectively. -/
theorem C4_first_match_assignment_witness :
    T1.step (fun (_ c : Nat) => c == 5) 3 ["Pos", "Tentative", "Firm"]
        ⟨[⟨1, "Pos", [3]⟩, ⟨2, "Pos", [5]⟩],
          [⟨1, SlotStatus.occupied⟩, ⟨2, SlotStatus.occupied⟩],
          [(1, 0), (2, 0)], [(1, 1), (2, 1)], []⟩ 9 =
      some ⟨[⟨1, "Pos", [3]⟩, ⟨2, "Tentative", [5, 9]⟩],
        [⟨1, SlotStatus.occupied⟩, ⟨2, SlotStatus.occupied⟩],
        [(1, 0), (2, 0)], [(1, 1), (2, 2)], []⟩
    ∧ T42.assoc_scan (fun (_ c : Nat) => c == 5) 3 ["Poss1", "Tentative1", "Firm"] 9
        (⟨[some ⟨1, [(5, "Firm")]⟩], [⟨1, SlotStatus.occupied⟩],
          [(0, 0)], [(0, 3)], [0], [0], [(0, "Firm")]⟩ : T42.S Nat)
        [some ⟨1, [(5, "Firm")]⟩] 0 =
      some (⟨[some ⟨1, [(5, "Firm"), (9, "Firm")]⟩], [⟨1, SlotStatus.occupied⟩],
        [(0, 0)], [(0, 3)], [0], [0], [(0, "Firm")]⟩, true)
    ∧ T42.assoc_scan (fun (_ c : Nat) => c == 5) 3 ["Poss1", "Tentative1", "Firm"] 9
        (⟨[none, some ⟨1, [(5, "Poss1")]⟩], [⟨1, SlotStatus.occupied⟩],
          [(1, 0)], [(1, 1)], [1], [], [(1, "Poss1")]⟩ : T42.S Nat)
        [none, some ⟨1, [(5, "Poss1")]⟩] 0 =
      some (⟨[none, some ⟨1, [(5, "Poss1"), (9, "Tentative1")]⟩],
        [⟨1, SlotStatus.occupied⟩], [(1, 0)], [(1, 2)], [1], [],
        [(1, "Tentative1")]⟩, true)
    ∧ T42.assoc_scan (fun (_ c : Nat) => c == 5) 3 ["Poss1", "Tentative1", "Firm"] 9
        (⟨[some ⟨1, [(5, "Poss1")]⟩], [⟨1, SlotStatus.occupied⟩],
          [], [], [], [], []⟩ : T42.S Nat)
        [some ⟨1, [(5, "Poss1")]⟩] 0 =
      some (⟨[some ⟨1, [(5, "Poss1"), (9, "Poss1")]⟩], [⟨1, SlotStatus.occupied⟩],
        [(0, 0)], [(0, 1)], [0], [], [(0, "Poss1")]⟩, true) := by
  refine ⟨?_, ?_, ?_, ?_⟩
  · have h := C4_first_match_assignment.1 Nat (fun (_ c : Nat) => c == 5) 3
      ["Pos", "Tentative", "Firm"]
      ⟨[⟨1, "Pos", [3]⟩, ⟨2, "Pos", [5]⟩],
        [⟨1, SlotStatus.occupied⟩, ⟨2, SlotStatus.occupied⟩],
        [(1, 0), (2, 0)], [(1, 1), (2, 1)], []⟩ 9
      [⟨1, "Pos", [3]⟩] [] ⟨2, "Pos", [5]⟩ 1 5 rfl
      (by
        intro t2 ht2
        simp only [List.mem_singleton] at ht2
        subst ht2
        exact ⟨3, rfl, rfl⟩)
      rfl rfl (by decide)
    exact h.trans (by decide)
  · have h := C4_first_match_assignment.2.1 Nat (fun (_ c : Nat) => c == 5) 3
      ["Poss1", "Tentative1", "Firm"]
      ⟨[some ⟨1, [(5, "Firm")]⟩], [⟨1, SlotStatus.occupied⟩],
        [(0, 0)], [(0, 3)], [0], [0], [(0, "Firm")]⟩ 9
      [] [] ⟨1, [(5, "Firm")]⟩ (5, "Firm") "Firm" rfl
      (by intro ot hot; cases hot)
      rfl rfl (by decide) rfl
    exact h.trans (by decide)
  · have h := C4_first_match_assignment.2.2.1 Nat (fun (_ c : Nat) => c == 5) 3
      ["Poss1", "Tentative1", "Firm"]
      ⟨[none, some ⟨1, [(5, "Poss1")]⟩], [⟨1, SlotStatus.occupied⟩],
        [(1, 0)], [(1, 1)], [1], [], [(1, "Poss1")]⟩ 9
      [none] [] ⟨1, [(5, "Poss1")]⟩ 1 (5, "Poss1") "Tentative1" rfl
      (by
        intro ot hot tr2 htr2
        simp only [List.mem_singleton] at hot
        rw [hot] at htr2
        cases htr2)
      rfl rfl (by decide) (by decide) (by decide) (by decide)
    exact h.trans (by decide)
  · have h := C4_first_match_assignment.2.2.2 Nat (fun (_ c : Nat) => c == 5) 3
      ["Poss1", "Tentative1", "Firm"]
      ⟨[some ⟨1, [(5, "Poss1")]⟩], [⟨1, SlotStatus.occupied⟩],
        [], [], [], [], []⟩ 9
      [] [] ⟨1, [(5, "Poss1")]⟩ (5, "Poss1") "Poss1" rfl
      (by intro ot hot; cases hot)
      rfl rfl (by decide) (by decide) rfl
    exact h.trans (by decide)

/-- C4 counterexample: two facts refute the claim as stated against
test1.py.  First, the claim's "hit update (§4.4)" gives state
`progression[hitCount - 1] = Firm` at the sixth SevenState hit
(`hitCount = 6 < N = 7`), but the code leaves the track at `Tentative`.
Second, the claim's "the pair (measurement, newState) is appended to its
history" fails: the stored histories of a ThreeState and a FiveState run
over the same two gating measurements are identical bare-measurement
lists, while the claimed pairs differ at the second entry's state
component (`Tentative` vs `Pos`), so the states are not in the history. -/
theorem C4_first_match_assignment_counterexample :
    ((T1.initialize_tracks (fun (_ _ : Nat) => true) 7 [0, 1, 2, 3, 4, 5]).map
        (fun s => s.tracks.map T1.Track.state) = some ["Tentative"]
      ∧ "Tentative" ≠
          spec_hit_state ["Pos", "Pos", "Tentative", "Tentative", "Tentative", "Firm"] 7 6)
    ∧ ((T1.initialize_tracks (fun (_ _ : Nat) => true) 3 [7, 8]).map
        (fun s => s.tracks.map T1.Track.measurements) = some [[7, 8]]
      ∧ (T1.initialize_tracks (fun (_ _ : Nat) => true) 5 [7, 8]).map
          (fun s => s.tracks.map T1.Track.measurements) = some [[7, 8]]
      ∧ spec_hit_state ["Pos", "Tentative", "Firm"] 3 2 ≠
          spec_hit_state ["Pos", "Pos", "Tentative", "Tentative", "Firm"] 5 2) := by
  exact ⟨⟨by decide, by decide⟩, by decide, by decide, by decide⟩
